import Mathlib

/-!
Verification development for the exam-scheduling core of the `project-bda`
repository (`backend/app/routers/scheduling.py`).

The Python code is shallowly embedded: UUIDs become `Nat` identifiers, SQL
dates become `Nat` day indices (consecutive numbers are consecutive days,
`d % 7 = 4` plays the role of `date.weekday() == 4`, i.e. Friday), times of
day become minutes after midnight (`Nat`), Python `set`s become `List`s used
up to membership (with explicit deduplication where the code takes a set's
size), nullable columns become `Option`, and the raised `HTTPException`s /
runtime errors become an `Except` error value.  Every definition follows the
corresponding Python function statement by statement.
-/

namespace ProjectBda

/-! ## Generic list helpers (Python `set` / `sorted` semantics) -/

/-- Stable insertion used by `sortBy`; `le a b = true` keeps `a` before `b`. -/
def insertBy {α : Type} (le : α → α → Bool) (a : α) : List α → List α
  | [] => [a]
  | b :: bs => if le a b then a :: b :: bs else b :: insertBy le a bs

/-- Stable insertion sort, modelling Python's stable `sorted` / SQL `ORDER BY`. -/
def sortBy {α : Type} (le : α → α → Bool) : List α → List α
  | [] => []
  | a :: as => insertBy le a (sortBy le as)

/-- Distinct elements of a list (Python `set(...)`): keeps one copy of each
element, so that `length` equals the set's cardinality. -/
def dedupL : List Nat → List Nat
  | [] => []
  | a :: as => if as.contains a then dedupL as else a :: dedupL as

/-- Python `a.isdisjoint(b)` on sets represented as lists. -/
def disjointL (a b : List Nat) : Bool :=
  a.all (fun x => !(b.contains x))

/-- Decidable equality of `Except` values with decidable components, so that
concrete endpoint results can be checked by `decide`. -/
instance {ε α : Type} [DecidableEq ε] [DecidableEq α] : DecidableEq (Except ε α) := fun a b =>
  match a, b with
  | .ok x, .ok y =>
    match decEq x y with
    | .isTrue h => .isTrue (h ▸ rfl)
    | .isFalse h => .isFalse (fun hc => h (Except.ok.inj hc))
  | .error x, .error y =>
    match decEq x y with
    | .isTrue h => .isTrue (h ▸ rfl)
    | .isFalse h => .isFalse (fun hc => h (Except.error.inj hc))
  | .ok _, .error _ => .isFalse (fun hc => Except.noConfusion hc)
  | .error _, .ok _ => .isFalse (fun hc => Except.noConfusion hc)

/-! ## Data model (`app/models/models.py`), reduced to the scheduling fields -/

/-- `ExamSession`: the scheduling horizon. -/
structure ExamSession where
  id : Nat
  start_date : Nat
  end_date : Nat
deriving Repr, DecidableEq

/-- `Enrollment`: (student, module) pair. -/
structure Enrollment where
  student_id : Nat
  module_id : Nat
deriving Repr, DecidableEq

/-- `ExamRoom`: the fields read by the scheduler. -/
structure ExamRoom where
  id : Nat
  name : String
  room_type : String
  exam_capacity : Nat
  has_computers : Bool
  is_available : Bool
  is_active : Bool
deriving Repr, DecidableEq

/-- `Exam`: the mutated entity.  `scheduled_date`, `start_time`, `room_id`
are the nullable schedule columns. -/
structure Exam where
  id : Nat
  module_id : Nat
  session_id : Nat
  room_id : Option Nat
  scheduled_date : Option Nat
  start_time : Option Nat
  duration_minutes : Nat
  status : String
  expected_students : Nat
  requires_computer : Bool
  requires_lab : Bool
deriving Repr, DecidableEq

/-- `Professor`: the fields read by the supervisor assigner. -/
structure Professor where
  id : Nat
  department_id : Nat
  max_exams_per_day : Nat
  is_active : Bool
deriving Repr, DecidableEq

/-- `ExamSupervisor`: rows created by the supervisor assigner. -/
structure ExamSupervisor where
  exam_id : Nat
  professor_id : Nat
  role : String
  is_department_exam : Bool
deriving Repr, DecidableEq

/-- `Module`: only the formation link is read by the assigner (department
affinity); the exam-configuration fields live on `Exam` by the time the
scheduler runs. -/
structure Module where
  id : Nat
  formation_id : Nat
deriving Repr, DecidableEq

/-- `Formation`: only the department link is read. -/
structure Formation where
  id : Nat
  department_id : Nat
deriving Repr, DecidableEq

/-- The database snapshot the routers read and write. -/
structure DB where
  sessions : List ExamSession
  enrollments : List Enrollment
  rooms : List ExamRoom
  exams : List Exam
  professors : List Professor
  supervisors : List ExamSupervisor
  modules : List Module
  formations : List Formation
deriving Repr, DecidableEq

/-- Errors surfaced by the endpoints: the 404 `HTTPException`s and the Python
runtime errors the code can raise. -/
inductive ApiError where
  | notFound
  | attributeError
  | typeError
  | keyError
deriving Repr, DecidableEq

/-- Exam status literal used throughout the router. -/
def pendingStatus : String := "pending"

/-- Exam status literal used throughout the router. -/
def scheduledStatus : String := "scheduled"

/-- Room type literal selecting lab rooms. -/
def labType : String := "lab"

/-- Supervisor role literal. -/
def responsibleRole : String := "responsible"

/-- Supervisor role literal. -/
def supervisorRole : String := "supervisor"

/-! ## Shared derived data -/

/-- `module_students[mid]` (scheduling.py:227-230): the set of students
enrolled in a module, from all enrollments.  `dedupL` gives set semantics;
an absent key of the `defaultdict` is the empty list. -/
def moduleStudents (enrs : List Enrollment) (mid : Nat) : List Nat :=
  dedupL ((enrs.filter (fun en => en.module_id == mid)).map (fun en => en.student_id))

/-- Standard start times 08:30, 11:00, 13:30, 16:00 in minutes
(scheduling.py:275). -/
def startTimes : List Nat := [510, 660, 810, 960]

/-- Slot generation (scheduling.py:277-284): every day of the session range
except Friday (`weekday() == 4`, here `d % 7 = 4`), four slots per day,
day-major, time-minor. -/
def genSlots (startDate endDate : Nat) : List (Nat × Nat) :=
  ((List.range' startDate (endDate + 1 - startDate)).filter
    (fun d => decide (d % 7 ≠ 4))).flatMap
    (fun d => startTimes.map (fun t => (d, t)))

/-! ## `schedule_entire_session` (scheduling.py:194-360) -/

/-- The greedy scheduler's in-memory tracking structures plus its counters:
`students_per_day`, `rooms_busy_at_slot`, `scheduled_count`, `failed_count`. -/
structure SchedSt where
  spd : Nat → List Nat
  rbs : Nat × Nat → List Nat
  scheduled : Nat
  failed : Nat

/-- Initial tracking state: empty defaultdicts and zero counters. -/
def emptySt : SchedSt :=
  { spd := fun _ => [], rbs := fun _ => [], scheduled := 0, failed := 0 }

/-- Pre-population of the tracking structures from an already-scheduled exam
(scheduling.py:268-272): guarded by `ex.scheduled_date` being non-null AND
`ex.module_id in module_students` (the module has at least one enrollment);
the room is marked busy only when `start_time` and `room_id` are also set. -/
def prefill (mstud : Nat → List Nat) (st : SchedSt) (ex : Exam) : SchedSt :=
  match ex.scheduled_date with
  | none => st
  | some d =>
    if mstud ex.module_id = [] then st
    else
      let st1 : SchedSt :=
        { st with spd := fun d2 => if d2 = d then mstud ex.module_id ++ st.spd d2 else st.spd d2 }
      match ex.start_time, ex.room_id with
      | some t, some rid =>
        { st1 with rbs := fun s2 => if s2 = (d, t) then rid :: st1.rbs s2 else st1.rbs s2 }
      | _, _ => st1

/-- Effective student count (scheduling.py:295-297): the size of the module's
enrollment set, falling back to `expected_students or 50` when it is zero. -/
def studentCount (mstud : Nat → List Nat) (e : Exam) : Nat :=
  let n := (mstud e.module_id).length
  if n = 0 then (if e.expected_students = 0 then 50 else e.expected_students) else n

/-- Parameters fixed for one scheduling run: the module→students map, the
slot sequence and the three room pools (scheduling.py:241-243, 274-284). -/
structure SParams where
  mstud : Nat → List Nat
  slots : List (Nat × Nat)
  labRooms : List ExamRoom
  compRooms : List ExamRoom
  allRooms : List ExamRoom

/-- Candidate room pool selection (scheduling.py:300-309): lab pool if the
exam requires a lab, else computer pool if it requires a computer, else all
rooms; always filtered by `exam_capacity >= student_count`. -/
def candidateRooms (P : SParams) (e : Exam) (cnt : Nat) : List ExamRoom :=
  if e.requires_lab then P.labRooms.filter (fun r => cnt ≤ r.exam_capacity)
  else if e.requires_computer then P.compRooms.filter (fun r => cnt ≤ r.exam_capacity)
  else P.allRooms.filter (fun r => cnt ≤ r.exam_capacity)

/-- Slot search (scheduling.py:319-344): walk the slot sequence in order,
skip a slot whose day already has one of this exam's students busy, otherwise
take the first candidate room not busy at that exact slot. -/
def findSlot (slots : List (Nat × Nat)) (students : List Nat) (cand : List ExamRoom)
    (spd : Nat → List Nat) (rbs : Nat × Nat → List Nat) : Option (Nat × Nat × ExamRoom) :=
  match slots with
  | [] => none
  | (d, t) :: rest =>
    if !(disjointL students (spd d)) then findSlot rest students cand spd rbs
    else
      match cand.find? (fun r => !((rbs (d, t)).contains r.id)) with
      | some r => some (d, t, r)
      | none => findSlot rest students cand spd rbs

/-- Failure bookkeeping (scheduling.py:312, 347). -/
def addFailed (st : SchedSt) : SchedSt :=
  { st with failed := st.failed + 1 }

/-- Commit to the tracking structures (scheduling.py:336-339). -/
def commitSt (st : SchedSt) (students : List Nat) (d t rid : Nat) : SchedSt :=
  { spd := fun d2 => if d2 = d then students ++ st.spd d2 else st.spd d2
    rbs := fun s2 => if s2 = (d, t) then rid :: st.rbs s2 else st.rbs s2
    scheduled := st.scheduled + 1
    failed := st.failed }

/-- Commit to the exam row (scheduling.py:330-333). -/
def commitExam (e : Exam) (d t rid : Nat) : Exam :=
  { e with scheduled_date := some d, start_time := some t, room_id := some rid,
           status := scheduledStatus }

/-- One iteration of the greedy loop (scheduling.py:293-347) for a single
pending exam: room pool, empty-pool failure, slot search, commit or failure. -/
def scheduleOne (P : SParams) (st : SchedSt) (e : Exam) : SchedSt × Exam :=
  if (candidateRooms P e (studentCount P.mstud e)).isEmpty then (addFailed st, e)
  else
    match findSlot P.slots (P.mstud e.module_id)
        (candidateRooms P e (studentCount P.mstud e)) st.spd st.rbs with
    | none => (addFailed st, e)
    | some (d, t, r) =>
      (commitSt st (P.mstud e.module_id) d t r.id, commitExam e d t r.id)

/-- The greedy loop over the pending exams, returning the final tracking
state and the (updated) exam rows in order. -/
def scheduleLoop (P : SParams) (st : SchedSt) : List Exam → SchedSt × List Exam
  | [] => (st, [])
  | e :: es =>
    let p := scheduleOne P st e
    let q := scheduleLoop P p.1 es
    (q.1, p.2 :: q.2)

/-- Result payload of `schedule_entire_session` (`SessionScheduleResult`);
the wall-clock `execution_time_ms` field is outside the model. -/
structure SessionScheduleResult where
  total_exams : Nat
  scheduled_count : Nat
  failed_count : Nat
deriving Repr, DecidableEq

/-- Session lookup (`scalar_one_or_none`, scheduling.py:221-222). -/
def sessionOf (db : DB) (sid : Nat) : Option ExamSession :=
  db.sessions.find? (fun s => s.id == sid)

/-- Active available rooms sorted ascending by exam capacity
(scheduling.py:233-241). -/
def roomsByCapacityOf (db : DB) : List ExamRoom :=
  sortBy (fun a b => decide (a.exam_capacity ≤ b.exam_capacity))
    (db.rooms.filter (fun r => r.is_active && r.is_available))

/-- Pending exams of the session, hardest (most expected students) first
(scheduling.py:246-251). -/
def pendingExamsOf (db : DB) (sid : Nat) : List Exam :=
  sortBy (fun a b => decide (b.expected_students ≤ a.expected_students))
    (db.exams.filter (fun e => e.session_id == sid && e.status == pendingStatus))

/-- Already-scheduled exams of the session (scheduling.py:254-257). -/
def existingExamsOf (db : DB) (sid : Nat) : List Exam :=
  db.exams.filter (fun e => e.session_id == sid && e.status == scheduledStatus)

/-- Tracking state pre-populated from the already-scheduled exams
(scheduling.py:264-272). -/
def initStOf (db : DB) (sid : Nat) : SchedSt :=
  (existingExamsOf db sid).foldl (prefill (moduleStudents db.enrollments)) emptySt

/-- The fixed parameters of one run (scheduling.py:227-243, 274-284). -/
def runParamsOf (db : DB) (s : ExamSession) : SParams :=
  let byCap := roomsByCapacityOf db
  { mstud := moduleStudents db.enrollments
    slots := genSlots s.start_date s.end_date
    labRooms := byCap.filter (fun r => r.room_type == labType)
    compRooms := byCap.filter (fun r => r.has_computers)
    allRooms := byCap }

/-- The in-memory phase of one run: final tracking state and updated pending
exam rows. -/
def runOf (db : DB) (sid : Nat) (s : ExamSession) : SchedSt × List Exam :=
  scheduleLoop (runParamsOf db s) (initStOf db sid) (pendingExamsOf db sid)

/-- `schedule_entire_session` (scheduling.py:194-360): 404 when the session
is missing, otherwise the greedy in-memory run followed by a single commit of
the mutated exam rows. -/
def schedule_entire_session (db : DB) (sid : Nat) :
    Except ApiError (DB × SessionScheduleResult) :=
  match sessionOf db sid with
  | none => .error .notFound
  | some s =>
    let r := runOf db sid s
    .ok ({ db with exams := db.exams.map (fun e => ((r.2.find? (fun p => p.id == e.id)).getD e)) },
         { total_exams := (pendingExamsOf db sid).length
           scheduled_count := r.1.scheduled
           failed_count := r.1.failed })

/-! ## `get_available_slots` (scheduling.py:28-151)

The endpoint takes three optional dict parameters (`module_students`,
`students_per_day`, `rooms_busy_at_slot`) defaulting to Python `None`; they
are modelled as `Option` association lists so that both Python's truthiness
test on a dict (`None` and the empty dict are falsy) and the runtime errors
of using `None` as a dict (`AttributeError` from `None.get`, `TypeError`
from `x in None`) can be expressed. -/

/-- Association-list lookup, modelling Python `dict.get`. -/
def lookupA {κ v : Type} [BEq κ] (m : List (κ × v)) (key : κ) : Option v :=
  (m.find? (fun p => p.1 == key)).map (fun p => p.2)

/-- One row of the `AvailableSlot` response schema. -/
structure AvailableSlot where
  slot_date : Nat
  slot_time : Nat
  room_id : Nat
  room_name : String
  room_capacity : Nat
  score : Int
deriving Repr, DecidableEq

/-- Inner room loop (scheduling.py:126-147): for each room of the compatible
pool, read `rooms_busy_at_slot.get((date, t), set())` — an `AttributeError`
when the parameter is `None` — then append a slot row unless the room is
busy, stopping at `limit`. -/
def availRoomLoop (rbs? : Option (List ((Nat × Nat) × List Nat))) (d t limit : Nat) :
    List ExamRoom → List AvailableSlot → Except ApiError (List AvailableSlot)
  | [], acc => .ok acc
  | r :: rs, acc =>
    match rbs? with
    | none => .error .attributeError
    | some m =>
      let busy := (lookupA m (d, t)).getD []
      if busy.contains r.id then availRoomLoop rbs? d t limit rs acc
      else
        let acc2 := acc ++ [⟨d, t, r.id, r.name, r.exam_capacity, 100 - (acc.length : Int)⟩]
        if limit ≤ acc2.length then .ok acc2
        else availRoomLoop rbs? d t limit rs acc2

/-- Time loop (scheduling.py:122-147): break when the limit is reached,
otherwise run the room loop for each start time. -/
def availTimeLoop (rbs? : Option (List ((Nat × Nat) × List Nat))) (d limit : Nat)
    (rooms : List ExamRoom) :
    List Nat → List AvailableSlot → Except ApiError (List AvailableSlot)
  | [], acc => .ok acc
  | t :: ts, acc =>
    if limit ≤ acc.length then .ok acc
    else
      match availRoomLoop rbs? d t limit rooms acc with
      | .error e => .error e
      | .ok acc2 => availTimeLoop rbs? d limit rooms ts acc2

/-- The in-memory one-exam-per-day check (scheduling.py:113-120): guarded by
`students_per_day` being truthy (non-`None` and non-empty) and the module
being a key of `module_students`; `x in None` is a `TypeError`.  Returns
whether the day must be skipped. -/
def availStudentSkip (exam : Exam) (ms? : Option (List (Nat × List Nat)))
    (spd? : Option (List (Nat × List Nat))) (d : Nat) : Except ApiError Bool :=
  match spd? with
  | none => .ok false
  | some spd =>
    if spd.isEmpty then .ok false
    else
      match ms? with
      | none => .error .typeError
      | some ms =>
        match lookupA ms exam.module_id with
        | none => .ok false
        | some modStds => .ok (!(disjointL modStds ((lookupA spd d).getD [])))

/-- Day loop (scheduling.py:108-149): skip Fridays and days with a busy
student, otherwise run the time loop. -/
def availDayLoop (exam : Exam) (ms? spd? : Option (List (Nat × List Nat)))
    (rbs? : Option (List ((Nat × Nat) × List Nat))) (limit : Nat) (rooms : List ExamRoom) :
    List Nat → List AvailableSlot → Except ApiError (List AvailableSlot)
  | [], acc => .ok acc
  | d :: ds, acc =>
    if d % 7 == 4 then availDayLoop exam ms? spd? rbs? limit rooms ds acc
    else
      match availStudentSkip exam ms? spd? d with
      | .error e => .error e
      | .ok true => availDayLoop exam ms? spd? rbs? limit rooms ds acc
      | .ok false =>
        match availTimeLoop rbs? d limit rooms startTimes acc with
        | .error e => .error e
        | .ok acc2 => availDayLoop exam ms? spd? rbs? limit rooms ds acc2

/-- `get_available_slots` (scheduling.py:28-151): exam and session lookup,
student list via enrollments (a list, not a set), compatible-room query
(capacity, availability, optional computer/lab filters, sorted by capacity),
then the day/time/room scan.  The prefetched `existing_exams`
(scheduling.py:94-102) are never read afterwards and are omitted. -/
def get_available_slots (db : DB) (exam_id limit : Nat)
    (ms? spd? : Option (List (Nat × List Nat)))
    (rbs? : Option (List ((Nat × Nat) × List Nat))) :
    Except ApiError (List AvailableSlot) :=
  match db.exams.find? (fun e => e.id == exam_id) with
  | none => .error .notFound
  | some exam =>
    match db.sessions.find? (fun s => s.id == exam.session_id) with
    | none => .error .notFound
    | some session =>
      let studentIds :=
        (db.enrollments.filter (fun en => en.module_id == exam.module_id)).map
          (fun en => en.student_id)
      let rooms0 := sortBy (fun a b => decide (a.exam_capacity ≤ b.exam_capacity))
        (db.rooms.filter (fun r =>
          decide (studentIds.length ≤ r.exam_capacity) && r.is_active && r.is_available))
      let rooms1 := if exam.requires_computer then rooms0.filter (fun r => r.has_computers) else rooms0
      let rooms := if exam.requires_lab then rooms1.filter (fun r => r.room_type == labType) else rooms1
      let days := List.range' session.start_date (session.end_date + 1 - session.start_date)
      availDayLoop exam ms? spd? rbs? limit rooms days []

/-! ## `assign_exam_supervisors` (scheduling.py:486-627) -/

/-- In-memory state of the supervisor assigner: per-professor busy slot set
and running load, the supervisor rows added so far, the `new_assignments`
counter, and the position in the injected random stream (`random.random()`
is modelled as reading successive values of `rand : Nat → Rat`). -/
structure AState where
  busy : Nat → List (Option Nat × Option Nat)
  load : Nat → Nat
  recs : List ExamSupervisor
  nAssign : Nat
  k : Nat

/-- Empty busy sets and zero loads (scheduling.py:525-526). -/
def emptyAState : AState :=
  { busy := fun _ => [], load := fun _ => 0, recs := [], nAssign := 0, k := 0 }

/-- `prof_busy[pid].add(sl)`: set insertion. -/
def addSlot (busy : Nat → List (Option Nat × Option Nat)) (pid : Nat)
    (sl : Option Nat × Option Nat) : Nat → List (Option Nat × Option Nat) :=
  fun p => if p = pid then (if sl ∈ busy pid then busy pid else sl :: busy pid) else busy p

/-- `prof_load[pid] += 1`. -/
def bumpLoad (load : Nat → Nat) (pid : Nat) : Nat → Nat :=
  fun p => if p = pid then load p + 1 else load p

/-- Pre-population of busy/load from the existing assignments
(scheduling.py:529-535).  `prof_busy`/`prof_load` only have the active
professors as keys, so an assignment by any other professor raises
`KeyError`. -/
def fillBusy (activeIds : List Nat) (exams : List Exam) :
    List ExamSupervisor → AState → Except ApiError AState
  | [], st => .ok st
  | sup :: rest, st =>
    match exams.find? (fun e => e.id == sup.exam_id) with
    | none => fillBusy activeIds exams rest st
    | some ex =>
      if sup.professor_id ∈ activeIds then
        fillBusy activeIds exams rest
          { st with busy := addSlot st.busy sup.professor_id (ex.scheduled_date, ex.start_time)
                    load := bumpLoad st.load sup.professor_id }
      else .error .keyError

/-- Required supervisor count (scheduling.py:545):
`max(2, expected_students // 25 + 1)`. -/
def requiredSupervisors (expected : Nat) : Nat :=
  max 2 (expected / 25 + 1)

/-- Department of the exam's module via module → formation (inner join,
scheduling.py:555-561); `none` when the module or its formation is missing. -/
def examDeptId (db : DB) (e : Exam) : Option Nat :=
  match db.modules.find? (fun m => m.id == e.module_id) with
  | none => none
  | some m => (db.formations.find? (fun f => f.id == m.formation_id)).map
      (fun f => f.department_id)

/-- `prof.max_exams_per_day or 3` (scheduling.py:572): Python `or` maps the
falsy 0 to the default 3. -/
def effectiveLimit (p : Professor) : Nat :=
  if p.max_exams_per_day = 0 then 3 else p.max_exams_per_day

/-- Number of busy slots of a professor on a given date
(scheduling.py:571). -/
def dayCount (busy : Nat → List (Option Nat × Option Nat)) (pid : Nat) (d : Option Nat) : Nat :=
  ((busy pid).filter (fun sl => sl.1 == d)).length

/-- Candidate construction (scheduling.py:564-593): reject a professor busy
at the exam's exact (date, time), at/over the daily limit, or already on this
exam; otherwise score = department affinity (+20) − 5×load + random jitter. -/
def candLoop (busy : Nat → List (Option Nat × Option Nat)) (load : Nat → Nat) (e : Exam)
    (deptId : Option Nat) (curSups : List ExamSupervisor) (rand : Nat → Rat) :
    List Professor → Nat → List (Rat × Nat) × Nat
  | [], k => ([], k)
  | p :: ps, k =>
    if (e.scheduled_date, e.start_time) ∈ busy p.id then
      candLoop busy load e deptId curSups rand ps k
    else if effectiveLimit p ≤ dayCount busy p.id e.scheduled_date then
      candLoop busy load e deptId curSups rand ps k
    else if curSups.any (fun s => s.professor_id == p.id) then
      candLoop busy load e deptId curSups rand ps k
    else
      let base : Rat := (if some p.department_id = deptId then 20 else 0) - 5 * (load p.id : Rat)
      let r := candLoop busy load e deptId curSups rand ps (k + 1)
      ((base + rand k, p.id) :: r.1, r.2)

/-- `prof_dict[pid].department_id == exam_dept_id` (scheduling.py:609). -/
def isDeptMatch (profs : List Professor) (pid : Nat) (deptId : Option Nat) : Bool :=
  match profs.find? (fun p => p.id == pid), deptId with
  | some p, some d => p.department_id == d
  | _, _ => false

/-- Assignment creation for the top candidates (scheduling.py:599-616):
the i-th pick gets role `responsible` exactly when `i == 0` and the exam had
no prior supervisors; busy set, load and counter are updated per pick. -/
def pickLoop (profs : List Professor) (e : Exam) (deptId : Option Nat) (noCur : Bool) :
    List (Rat × Nat) → Nat → AState → AState
  | [], _, st => st
  | c :: rest, i, st =>
    let role := if i == 0 && noCur then responsibleRole else supervisorRole
    let ns : ExamSupervisor :=
      { exam_id := e.id, professor_id := c.2, role := role
        is_department_exam := isDeptMatch profs c.2 deptId }
    pickLoop profs e deptId noCur rest (i + 1)
      { busy := addSlot st.busy c.2 (e.scheduled_date, e.start_time)
        load := bumpLoad st.load c.2
        recs := st.recs ++ [ns]
        nAssign := st.nAssign + 1
        k := st.k }

/-- Per-exam step of the greedy assignment (scheduling.py:542-616). -/
def assignExam (db : DB) (profs : List Professor) (existing : List ExamSupervisor)
    (rand : Nat → Rat) (st : AState) (e : Exam) : AState :=
  let countNeeded := requiredSupervisors e.expected_students
  let curSups := existing.filter (fun s => s.exam_id == e.id)
  if countNeeded ≤ curSups.length then st
  else
    let needed := countNeeded - curSups.length
    let deptId := examDeptId db e
    let c := candLoop st.busy st.load e deptId curSups rand profs st.k
    let srt := sortBy (fun a b => decide (b.1 ≤ a.1)) c.1
    pickLoop profs e deptId curSups.isEmpty (srt.take needed) 0 { st with k := c.2 }

/-- Scheduled exams of a session, in fetch order (scheduling.py:502-505). -/
def scheduledExamsOf (db : DB) (sid : Nat) : List Exam :=
  db.exams.filter (fun e => e.session_id == sid && e.status == scheduledStatus)

/-- Active professors (scheduling.py:513). -/
def activeProfsOf (db : DB) : List Professor :=
  db.professors.filter (fun p => p.is_active)

/-- Existing supervisor rows of the session's scheduled exams
(scheduling.py:519-522). -/
def existingAssignmentsOf (db : DB) (sid : Nat) : List ExamSupervisor :=
  db.supervisors.filter (fun s => (scheduledExamsOf db sid).any (fun e => e.id == s.exam_id))

/-- The two shapes of the endpoint's JSON response: the message-only dict of
the no-scheduled-exams early return (scheduling.py:507-508) carries no
counts; the normal return (scheduling.py:620-627) carries the three
counts. -/
inductive AssignResponse where
  | noExams
  | report (assignments_made professors_used : Nat) (avg_supervisions : Rat)
deriving Repr, DecidableEq

/-- The greedy assignment fold over the session's scheduled exams
(scheduling.py:542-616), starting from the pre-populated state. -/
def assignRunOf (db : DB) (sid : Nat) (rand : Nat → Rat) (st0 : AState) : AState :=
  (scheduledExamsOf db sid).foldl
    (assignExam db (activeProfsOf db) (existingAssignmentsOf db sid) rand) st0

/-- `assign_exam_supervisors` (scheduling.py:486-627). -/
def assign_exam_supervisors (db : DB) (sid : Nat) (rand : Nat → Rat) :
    Except ApiError (DB × AssignResponse) :=
  match db.sessions.find? (fun s => s.id == sid) with
  | none => .error .notFound
  | some _ =>
    if (scheduledExamsOf db sid).isEmpty then .ok (db, .noExams)
    else
      match fillBusy ((activeProfsOf db).map (fun p => p.id)) (scheduledExamsOf db sid)
          (existingAssignmentsOf db sid) emptyAState with
      | .error e => .error e
      | .ok st0 =>
        .ok ({ db with supervisors := db.supervisors ++ (assignRunOf db sid rand st0).recs },
          .report (assignRunOf db sid rand st0).nAssign
            (((dedupL ((activeProfsOf db).map (fun p => p.id))).filter
              (fun pid => 0 < (assignRunOf db sid rand st0).load pid)).length)
            (if (activeProfsOf db).isEmpty then 0
             else (((dedupL ((activeProfsOf db).map (fun p => p.id))).map
                 (assignRunOf db sid rand st0).load).sum : Rat) /
               ((activeProfsOf db).length : Rat)))

/-! ## Conflict-auditor overlap predicate and spec-side checkers -/

/-- `times_overlap` from the conflict auditor (scheduling.py:727-732): two
minute-of-day intervals `[s, s+d)` intersect; a missing start time cannot
overlap. -/
def times_overlap (s1 : Option Nat) (d1 : Nat) (s2 : Option Nat) (d2 : Nat) : Bool :=
  match s1, s2 with
  | some m1, some m2 => max m1 m2 < min (m1 + d1) (m2 + d2)
  | _, _ => false

/-- Checker for the invariant claimed in C1: some two scheduled exams with
different ids share the same (room_id, scheduled_date, start_time). -/
def hasRoomSlotCollision (exams : List Exam) : Bool :=
  exams.any (fun e1 => exams.any (fun e2 =>
    e1.id != e2.id && e1.status == scheduledStatus && e2.status == scheduledStatus &&
    e1.room_id == e2.room_id && e1.scheduled_date == e2.scheduled_date &&
    e1.start_time == e2.start_time))

/-- Checker for the invariant claimed in C3: some scheduled exam sits in a
room whose capacity is below its `expected_students`. -/
def hasCapacityShortfall (db : DB) : Bool :=
  db.exams.any (fun e => e.status == scheduledStatus &&
    db.rooms.any (fun r => some r.id == e.room_id && decide (r.exam_capacity < e.expected_students)))

/-- Checker for the invariant claimed in C4: some professor supervises two
distinct exams on the same date whose `[start, start+duration)` windows
intersect. -/
def hasSupervisorOverlap (db : DB) : Bool :=
  db.supervisors.any (fun s1 => db.supervisors.any (fun s2 =>
    s1.professor_id == s2.professor_id && s1.exam_id != s2.exam_id &&
    (match db.exams.find? (fun e => e.id == s1.exam_id),
           db.exams.find? (fun e => e.id == s2.exam_id) with
     | some e1, some e2 =>
       e1.scheduled_date == e2.scheduled_date && e1.scheduled_date.isSome &&
       times_overlap e1.start_time e1.duration_minutes e2.start_time e2.duration_minutes
     | _, _ => false)))

/-- Discriminator used for C9: does the response carry the three counts? -/
def hasCounts : AssignResponse → Bool
  | .noExams => false
  | .report _ _ _ => true

/-! ## Specification predicates used in theorem statements -/

/-- Relation between an input pending exam and its row after the run: either
untouched (infeasible) or committed to some (date, time, room). -/
def StepRel (e e2 : Exam) : Prop :=
  e2 = e ∨ ∃ d t rid, e2 = commitExam e d t rid

/-- The exam row was a pending row of the pre-run database (identified by
primary key), i.e. it was scheduled by this run if it is now scheduled. -/
def wasPendingBefore (db : DB) (e2 : Exam) : Prop :=
  ∃ e, e ∈ db.exams ∧ e.id = e2.id ∧ e.status = pendingStatus

/-- Day-exclusivity of two exam rows: if both are scheduled and their modules
share a student, they sit on different days. -/
def dayClashFree (mstud : Nat → List Nat) (e1 e2 : Exam) : Prop :=
  e1.status = scheduledStatus → e2.status = scheduledStatus →
  ∀ s, s ∈ mstud e1.module_id → s ∈ mstud e2.module_id →
  e1.scheduled_date ≠ e2.scheduled_date

/-- Room-slot exclusivity of two exam rows: if both are scheduled they do not
share the full (room_id, scheduled_date, start_time) triple. -/
def roomClashFree (e1 e2 : Exam) : Prop :=
  e1.status = scheduledStatus → e2.status = scheduledStatus →
  ¬(e1.room_id = e2.room_id ∧ e1.scheduled_date = e2.scheduled_date ∧
    e1.start_time = e2.start_time)

/-- The (date, time) slot of the exam (from the session's scheduled exam
list) a supervisor row points at, when that exam exists. -/
def slotOfSup (E : List Exam) (s : ExamSupervisor) : Option (Option Nat × Option Nat) :=
  (E.find? (fun e => e.id == s.exam_id)).map (fun e => (e.scheduled_date, e.start_time))

/-- Slot-exclusivity of two supervisor rows: one professor never covers two
distinct exams sitting at the same exact (date, time). -/
def supSlotOK (E : List Exam) (s1 s2 : ExamSupervisor) : Prop :=
  s1.professor_id = s2.professor_id → s1.exam_id ≠ s2.exam_id →
  ∀ sl1 sl2, slotOfSup E s1 = some sl1 → slotOfSup E s2 = some sl2 → sl1 ≠ sl2

/-- Does this supervisor row bind professor `pid` to an exam scheduled on
date `d`? -/
def supOnDate (E : List Exam) (pid d : Nat) (s : ExamSupervisor) : Bool :=
  s.professor_id == pid &&
    (match slotOfSup E s with
     | some (some d2, _) => d2 == d
     | _ => false)

/-- Number of exams of date `d` professor `pid` supervises. -/
def supsOnDate (E : List Exam) (sups : List ExamSupervisor) (pid d : Nat) : Nat :=
  (sups.filter (supOnDate E pid d)).length

/-- Invariant of the supervisor assigner's in-memory state (run started with
no pre-existing assignments): every created row's slot is recorded in its
professor's busy set, created rows are pairwise slot-exclusive per professor,
busy sets are duplicate-free, and per professor and date the number of
created rows is bounded by the busy-slot count, itself bounded by the daily
limit. -/
def AInv (E : List Exam) (profs : List Professor) (st : AState) : Prop :=
  (∀ r2 ∈ st.recs, ∀ sl, slotOfSup E r2 = some sl → sl ∈ st.busy r2.professor_id) ∧
  List.Pairwise (supSlotOK E) st.recs ∧
  (∀ pid, (st.busy pid).Nodup) ∧
  (∀ p ∈ profs, ∀ d : Nat,
    supsOnDate E st.recs p.id d ≤ dayCount st.busy p.id (some d) ∧
    dayCount st.busy p.id (some d) ≤ effectiveLimit p)

/-! ## Concrete databases used by counterexamples and witnesses -/

/-- An already-scheduled exam: module 1, day 0, 08:30, room 1. -/
def exScheduled : Exam :=
  { id := 1
    module_id := 1
    session_id := 1
    room_id := some 1
    scheduled_date := some 0
    start_time := some 510
    duration_minutes := 120
    status := "scheduled"
    expected_students := 5
    requires_computer := false
    requires_lab := false }

/-- A not-yet-scheduled exam: module 2, all schedule fields null. -/
def exPending : Exam :=
  { id := 2
    module_id := 2
    session_id := 1
    room_id := none
    scheduled_date := none
    start_time := none
    duration_minutes := 120
    status := "pending"
    expected_students := 5
    requires_computer := false
    requires_lab := false }

/-- A big active available classroom. -/
def roomBig : ExamRoom :=
  { id := 1
    name := "A1"
    room_type := "classroom"
    exam_capacity := 100
    has_computers := false
    is_available := true
    is_active := true }

/-- A one-day session: day 0 (not a Friday, since 0 % 7 = 0). -/
def sessOneDay : ExamSession := { id := 1, start_date := 0, end_date := 0 }

/-- Counterexample database for C1: exam 1 is already scheduled in room 1 at
(day 0, 08:30) but its module 1 has no enrollments, so the pre-population
guard `ex.module_id in module_students` skips it; pending exam 2 (module 2,
one student) is then committed to the very same (room, date, time). -/
def cexDb1 : DB :=
  { sessions := [sessOneDay]
    enrollments := [{ student_id := 7, module_id := 2 }]
    rooms := [roomBig]
    exams := [exScheduled, exPending]
    professors := []
    supervisors := []
    modules := []
    formations := [] }

/-- Counterexample database for C3: pending exam with `expected_students =
100` but a single enrolled student; the only room has capacity 10. -/
def cexDb3 : DB :=
  { sessions := [sessOneDay]
    enrollments := [{ student_id := 1, module_id := 1 }]
    rooms := [{ roomBig with name := "S1", exam_capacity := 10 }]
    exams := [{ exPending with id := 1, module_id := 1, expected_students := 100 }]
    professors := []
    supervisors := []
    modules := []
    formations := [] }

/-- Scheduled exam at (day 0, 08:30) lasting 180 minutes: its window
[510, 690) overlaps the 11:00 slot. -/
def exLong : Exam :=
  { exScheduled with duration_minutes := 180, expected_students := 0 }

/-- Scheduled exam at (day 0, 11:00) lasting 60 minutes: window [660, 720). -/
def exEleven : Exam :=
  { exScheduled with id := 2, room_id := some 2, start_time := some 660,
                     duration_minutes := 60, expected_students := 0 }

/-- An active professor of department 1. -/
def profTen : Professor := { id := 10, department_id := 1, max_exams_per_day := 3, is_active := true }

/-- Counterexample database for C4: two scheduled exams of the same session
whose time windows overlap (08:30+180min vs 11:00+60min on day 0) but whose
exact (date, time) slots differ, and a single active professor. -/
def cexDb4 : DB :=
  { sessions := [sessOneDay]
    enrollments := []
    rooms := []
    exams := [exLong, exEleven]
    professors := [profTen]
    supervisors := []
    modules := [{ id := 1, formation_id := 1 }]
    formations := [{ id := 1, department_id := 1 }] }

/-- Database for C6: an existing exam in an existing one-day session and one
compatible room, so the standalone slot query reaches the room loop. -/
def bugDb6 : DB :=
  { sessions := [sessOneDay]
    enrollments := []
    rooms := [roomBig]
    exams := [{ exPending with id := 1, module_id := 1, expected_students := 0 }]
    professors := []
    supervisors := []
    modules := []
    formations := [] }

/-- Counterexample database for C8: one pending exam and no rooms at all, so
the first run fails the exam and leaves it pending. -/
def cexDb8 : DB := { bugDb6 with rooms := [] }

/-- Counterexample database for C9: an existing session with no exams, which
triggers the message-only early return. -/
def cexDb9 : DB := { cexDb8 with exams := [] }

/-- First pending exam of the witness database. -/
def witPend1 : Exam := { exPending with id := 1, module_id := 1, expected_students := 10 }

/-- Second pending exam of the witness database. -/
def witPend2 : Exam := { exPending with id := 2, module_id := 2, expected_students := 5 }

/-- Witness database for the scheduler theorems: a two-day session, one
50-seat room, and two pending exams whose modules share student 5. -/
def witDbSched : DB :=
  { sessions := [{ id := 1, start_date := 0, end_date := 1 }]
    enrollments := [{ student_id := 5, module_id := 1 }, { student_id := 5, module_id := 2 }]
    rooms := [{ roomBig with name := "W1", exam_capacity := 50 }]
    exams := [witPend1, witPend2]
    professors := []
    supervisors := []
    modules := []
    formations := [] }

/-- First exam of `witDbSched` after the run: committed to (day 0, 08:30,
room 1). -/
def witExam1 : Exam :=
  { exPending with id := 1, module_id := 1, expected_students := 10, room_id := some 1,
                   scheduled_date := some 0, start_time := some 510, status := "scheduled" }

/-- Second exam of `witDbSched` after the run: committed to (day 1, 08:30,
room 1), one day later because student 5 is busy on day 0. -/
def witExam2 : Exam :=
  { exPending with id := 2, module_id := 2, expected_students := 5, room_id := some 1,
                   scheduled_date := some 1, start_time := some 510, status := "scheduled" }

/-- Final database of the `witDbSched` run. -/
def witDbSchedAfter : DB := { witDbSched with exams := [witExam1, witExam2] }

/-- Witness database for the supervisor theorems: the two non-overlapping
slots of `cexDb4` with two active professors. -/
def witDbSup : DB := { cexDb4 with professors := [profTen, { profTen with id := 11 }] }

/-- Final database of the `witDbSup` assignment run: each of the two exams
receives its two required supervisors (professors 10 and 11), the first
pick of each exam as `responsible`. -/
def witDbSupAfter : DB :=
  { witDbSup with supervisors :=
      [{ exam_id := 1, professor_id := 10, role := "responsible", is_department_exam := true },
       { exam_id := 1, professor_id := 11, role := "supervisor", is_department_exam := true },
       { exam_id := 2, professor_id := 10, role := "responsible", is_department_exam := true },
       { exam_id := 2, professor_id := 11, role := "supervisor", is_department_exam := true }] }

/-- Witness exam for C5: 60 expected students, so 3 supervisors required. -/
def witExam5 : Exam := { exScheduled with id := 9, expected_students := 60 }

/-- Witness professor pool for C5. -/
def witProfs5 : List Professor :=
  [profTen, { profTen with id := 11 }, { profTen with id := 12, department_id := 2 }]

/-- Witness database for C9: one scheduled exam and one active professor. -/
def witDb9 : DB := { cexDb4 with exams := [exLong] }

/-! ## Helper lemmas on the list utilities -/

theorem insertBy_perm {α : Type} (le : α → α → Bool) (a : α) :
    ∀ l : List α, List.Perm (insertBy le a l) (a :: l)
  | [] => by simp [insertBy]
  | b :: bs => by
    unfold insertBy
    by_cases h : le a b
    · simp [h]
    · simp only [h, if_neg, Bool.false_eq_true, not_false_eq_true, ite_false]
      exact ((insertBy_perm le a bs).cons b).trans (List.Perm.swap a b bs)

theorem sortBy_perm {α : Type} (le : α → α → Bool) :
    ∀ l : List α, List.Perm (sortBy le l) l
  | [] => List.Perm.refl []
  | a :: as => (insertBy_perm le a (sortBy le as)).trans ((sortBy_perm le as).cons a)

theorem mem_sortBy {α : Type} {le : α → α → Bool} {l : List α} {x : α} :
    x ∈ sortBy le l ↔ x ∈ l :=
  (sortBy_perm le l).mem_iff

theorem length_sortBy {α : Type} (le : α → α → Bool) (l : List α) :
    (sortBy le l).length = l.length :=
  (sortBy_perm le l).length_eq

theorem mem_dedupL : ∀ {l : List Nat} {x : Nat}, x ∈ dedupL l ↔ x ∈ l
  | [], x => Iff.rfl
  | a :: as, x => by
    unfold dedupL
    by_cases h : as.contains a
    · rw [if_pos h, mem_dedupL]
      constructor
      · exact fun hx => List.mem_cons_of_mem a hx
      · intro hx
        rcases List.mem_cons.1 hx with rfl | hx
        · exact List.elem_iff.mp h
        · exact hx
    · rw [if_neg h]
      simp [mem_dedupL]

theorem dedupL_eq_nil_iff : ∀ {l : List Nat}, dedupL l = [] ↔ l = [] := by
  intro l
  constructor
  · intro h
    cases l with
    | nil => rfl
    | cons a as =>
      have : a ∈ dedupL (a :: as) := mem_dedupL.mpr (List.mem_cons_self a as)
      rw [h] at this
      exact absurd this (List.not_mem_nil a)
  · intro h
    rw [h]
    rfl

theorem disjointL_iff {a b : List Nat} : disjointL a b = true ↔ ∀ x ∈ a, x ∉ b := by
  simp [disjointL, List.all_eq_true, List.contains, List.elem_iff]

/-! ## Basic lemmas about the greedy scheduler -/

theorem findSlot_some (students : List Nat) (cand : List ExamRoom) :
    ∀ (slots : List (Nat × Nat)) (spd : Nat → List Nat) (rbs : Nat × Nat → List Nat)
      {d t : Nat} {r : ExamRoom},
      findSlot slots students cand spd rbs = some (d, t, r) →
      (d, t) ∈ slots ∧ disjointL students (spd d) = true ∧ r ∈ cand ∧
        ((rbs (d, t)).contains r.id) = false := by
  intro slots
  induction slots with
  | nil => intro spd rbs d t r h; exact absurd h (by simp [findSlot])
  | cons dt rest ih =>
    obtain ⟨d0, t0⟩ := dt
    intro spd rbs d t r h
    unfold findSlot at h
    by_cases hd : disjointL students (spd d0) = true
    · rw [hd] at h
      simp only [Bool.not_true, Bool.false_eq_true, if_false] at h
      cases hf : (cand.find? (fun r2 => !((rbs (d0, t0)).contains r2.id))) with
      | none =>
        rw [hf] at h
        obtain ⟨h1, h2, h3, h4⟩ := ih spd rbs h
        exact ⟨List.mem_cons_of_mem _ h1, h2, h3, h4⟩
      | some r0 =>
        rw [hf] at h
        obtain ⟨rfl, rfl, rfl⟩ : d0 = d ∧ t0 = t ∧ r0 = r := by
          injection h with h
          injection h with ha hb
          injection hb with hb hc
          exact ⟨ha, hb, hc⟩
        refine ⟨List.mem_cons_self _ _, hd, List.mem_of_find?_eq_some hf, ?_⟩
        have := List.find?_some hf
        simpa using this
    · rw [Bool.not_eq_true] at hd
      rw [hd] at h
      simp only [Bool.not_false, if_true] at h
      obtain ⟨h1, h2, h3, h4⟩ := ih spd rbs h
      exact ⟨List.mem_cons_of_mem _ h1, h2, h3, h4⟩

theorem scheduleOne_cases (P : SParams) (st : SchedSt) (e : Exam) :
    scheduleOne P st e = (addFailed st, e) ∨
    ∃ d t r, findSlot P.slots (P.mstud e.module_id)
        (candidateRooms P e (studentCount P.mstud e)) st.spd st.rbs = some (d, t, r) ∧
      scheduleOne P st e =
        (commitSt st (P.mstud e.module_id) d t r.id, commitExam e d t r.id) := by
  unfold scheduleOne
  split
  · exact Or.inl rfl
  · split
    · exact Or.inl rfl
    · rename_i d t r hf
      exact Or.inr ⟨d, t, r, hf, rfl⟩

theorem commitSt_spd_mem {st : SchedSt} {students : List Nat} {d0 t0 rid : Nat}
    {d s : Nat} (h : s ∈ st.spd d) : s ∈ (commitSt st students d0 t0 rid).spd d := by
  unfold commitSt
  by_cases hdd : d = d0
  · simp only [hdd, if_pos rfl]
    exact List.mem_append_right _ (hdd ▸ h)
  · simpa [hdd] using h

theorem commitSt_rbs_mem {st : SchedSt} {students : List Nat} {d0 t0 rid : Nat}
    {sl : Nat × Nat} {x : Nat} (h : x ∈ st.rbs sl) : x ∈ (commitSt st students d0 t0 rid).rbs sl := by
  unfold commitSt
  by_cases hdd : sl = (d0, t0)
  · simp only [hdd, if_pos rfl]
    exact List.mem_cons_of_mem _ (hdd ▸ h)
  · simpa [hdd] using h

theorem scheduleOne_spd_mono (P : SParams) (st : SchedSt) (e : Exam) {d s : Nat}
    (h : s ∈ st.spd d) : s ∈ (scheduleOne P st e).1.spd d := by
  rcases scheduleOne_cases P st e with hc | ⟨d0, t0, r0, _, hc⟩ <;> rw [hc]
  · exact h
  · exact commitSt_spd_mem h

theorem scheduleOne_rbs_mono (P : SParams) (st : SchedSt) (e : Exam) {sl : Nat × Nat} {x : Nat}
    (h : x ∈ st.rbs sl) : x ∈ (scheduleOne P st e).1.rbs sl := by
  rcases scheduleOne_cases P st e with hc | ⟨d0, t0, r0, _, hc⟩ <;> rw [hc]
  · exact h
  · exact commitSt_rbs_mem h

theorem scheduleLoop_spd_mono (P : SParams) :
    ∀ (es : List Exam) (st : SchedSt) {d s : Nat},
      s ∈ st.spd d → s ∈ (scheduleLoop P st es).1.spd d
  | [], _, _, _, h => h
  | e :: es, st, _, _, h =>
    scheduleLoop_spd_mono P es (scheduleOne P st e).1 (scheduleOne_spd_mono P st e h)

theorem scheduleLoop_rbs_mono (P : SParams) :
    ∀ (es : List Exam) (st : SchedSt) {sl : Nat × Nat} {x : Nat},
      x ∈ st.rbs sl → x ∈ (scheduleLoop P st es).1.rbs sl
  | [], _, _, _, h => h
  | e :: es, st, _, _, h =>
    scheduleLoop_rbs_mono P es (scheduleOne P st e).1 (scheduleOne_rbs_mono P st e h)

theorem scheduleOne_counts (P : SParams) (st : SchedSt) (e : Exam) :
    (scheduleOne P st e).1.scheduled + (scheduleOne P st e).1.failed =
      st.scheduled + st.failed + 1 := by
  rcases scheduleOne_cases P st e with hc | ⟨d0, t0, r0, _, hc⟩ <;> rw [hc]
  · simp only [addFailed]
    omega
  · simp only [commitSt]
    omega

theorem scheduleLoop_counts (P : SParams) :
    ∀ (es : List Exam) (st : SchedSt),
      (scheduleLoop P st es).1.scheduled + (scheduleLoop P st es).1.failed =
        st.scheduled + st.failed + es.length
  | [], _ => rfl
  | e :: es, st => by
    have h1 := scheduleLoop_counts P es (scheduleOne P st e).1
    have h2 := scheduleOne_counts P st e
    show (scheduleLoop P (scheduleOne P st e).1 es).1.scheduled +
        (scheduleLoop P (scheduleOne P st e).1 es).1.failed = st.scheduled + st.failed + (es.length + 1)
    omega

theorem scheduleLoop_rel (P : SParams) :
    ∀ (es : List Exam) (st : SchedSt), List.Forall₂ StepRel es (scheduleLoop P st es).2
  | [], _ => List.Forall₂.nil
  | e :: es, st => by
    refine List.Forall₂.cons ?_ (scheduleLoop_rel P es (scheduleOne P st e).1)
    rcases scheduleOne_cases P st e with hc | ⟨d0, t0, r0, _, hc⟩ <;> rw [hc]
    · exact Or.inl rfl
    · exact Or.inr ⟨d0, t0, r0.id, rfl⟩

theorem StepRel_id {e e2 : Exam} (h : StepRel e e2) : e2.id = e.id := by
  rcases h with rfl | ⟨d, t, rid, rfl⟩
  · rfl
  · rfl

theorem StepRel_session {e e2 : Exam} (h : StepRel e e2) : e2.session_id = e.session_id := by
  rcases h with rfl | ⟨d, t, rid, rfl⟩
  · rfl
  · rfl

theorem StepRel_status {e e2 : Exam} (h : StepRel e e2) :
    e2 = e ∨ e2.status = scheduledStatus := by
  rcases h with rfl | ⟨d, t, rid, rfl⟩
  · exact Or.inl rfl
  · exact Or.inr rfl

theorem statuses_ne : pendingStatus ≠ scheduledStatus := by decide

theorem contains_eq_false {l : List Nat} {x : Nat} : (l.contains x = false) ↔ x ∉ l := by
  rw [← Bool.not_eq_true]
  simp [List.contains, List.elem_iff]

theorem commitSt_spd_self {st : SchedSt} {students : List Nat} {d0 t0 rid : Nat}
    {s : Nat} (h : s ∈ students) : s ∈ (commitSt st students d0 t0 rid).spd d0 := by
  unfold commitSt
  simp only [if_pos rfl]
  exact List.mem_append_left _ h

theorem commitSt_rbs_self {st : SchedSt} {students : List Nat} {d0 t0 rid : Nat} :
    rid ∈ (commitSt st students d0 t0 rid).rbs (d0, t0) := by
  unfold commitSt
  simp only [if_pos rfl]
  exact List.mem_cons_self _ _

/-! ## Per-committed-exam facts and pairwise invariants of the loop -/

theorem scheduleLoop_spd_facts (P : SParams) :
    ∀ (es : List Exam) (st : SchedSt),
      (∀ e ∈ es, e.status = pendingStatus) →
      ∀ {e2 : Exam}, e2 ∈ (scheduleLoop P st es).2 → e2.status = scheduledStatus →
      ∃ d, e2.scheduled_date = some d ∧
        (∀ s ∈ P.mstud e2.module_id, s ∈ (scheduleLoop P st es).1.spd d) ∧
        (∀ s ∈ P.mstud e2.module_id, s ∉ st.spd d) := by
  intro es
  induction es with
  | nil => intro st _ e2 h2; exact absurd h2 (List.not_mem_nil e2)
  | cons e es ih =>
    intro st hp e2 h2 hs2
    rcases List.mem_cons.1 h2 with rfl | h2
    · rcases scheduleOne_cases P st e with hc | ⟨d0, t0, r0, hf, hc⟩
      · exfalso
        have he : (scheduleOne P st e).2 = e := by rw [hc]
        rw [he] at hs2
        exact statuses_ne ((hp e (List.mem_cons_self e es)).symm.trans hs2)
      · have he : (scheduleOne P st e).2 = commitExam e d0 t0 r0.id := by rw [hc]
        have hst : (scheduleOne P st e).1 = commitSt st (P.mstud e.module_id) d0 t0 r0.id := by
          rw [hc]
        obtain ⟨_, hdis, _, _⟩ := findSlot_some _ _ _ _ _ hf
        refine ⟨d0, by rw [he]; rfl, ?_, ?_⟩
        · intro s hs
          have hmod : P.mstud (scheduleOne P st e).2.module_id = P.mstud e.module_id := by
            rw [he]
            rfl
          rw [hmod] at hs
          have : s ∈ (scheduleOne P st e).1.spd d0 := by
            rw [hst]; exact commitSt_spd_self hs
          exact scheduleLoop_spd_mono P es _ this
        · intro s hs
          have hmod : P.mstud (scheduleOne P st e).2.module_id = P.mstud e.module_id := by
            rw [he]
            rfl
          rw [hmod] at hs
          exact (disjointL_iff.1 hdis) s hs
    · have hp2 : ∀ a ∈ es, a.status = pendingStatus := fun a ha =>
        hp a (List.mem_cons_of_mem e ha)
      obtain ⟨d, hd, hin, hout⟩ := ih (scheduleOne P st e).1 hp2 h2 hs2
      exact ⟨d, hd, hin, fun s hs hmem =>
        hout s hs (scheduleOne_spd_mono P st e hmem)⟩

theorem scheduleLoop_room_facts (P : SParams) :
    ∀ (es : List Exam) (st : SchedSt),
      (∀ e ∈ es, e.status = pendingStatus) →
      ∀ {e2 : Exam}, e2 ∈ (scheduleLoop P st es).2 → e2.status = scheduledStatus →
      ∃ r, r ∈ candidateRooms P e2 (studentCount P.mstud e2) ∧ e2.room_id = some r.id ∧
      ∃ d t, e2.scheduled_date = some d ∧ e2.start_time = some t ∧ (d, t) ∈ P.slots ∧
        r.id ∈ (scheduleLoop P st es).1.rbs (d, t) ∧ r.id ∉ st.rbs (d, t) := by
  intro es
  induction es with
  | nil => intro st _ e2 h2; exact absurd h2 (List.not_mem_nil e2)
  | cons e es ih =>
    intro st hp e2 h2 hs2
    rcases List.mem_cons.1 h2 with rfl | h2
    · rcases scheduleOne_cases P st e with hc | ⟨d0, t0, r0, hf, hc⟩
      · exfalso
        have he : (scheduleOne P st e).2 = e := by rw [hc]
        rw [he] at hs2
        exact statuses_ne ((hp e (List.mem_cons_self e es)).symm.trans hs2)
      · have he : (scheduleOne P st e).2 = commitExam e d0 t0 r0.id := by rw [hc]
        have hst : (scheduleOne P st e).1 = commitSt st (P.mstud e.module_id) d0 t0 r0.id := by
          rw [hc]
        obtain ⟨hslot, _, hcand, hcont⟩ := findSlot_some _ _ _ _ _ hf
        refine ⟨r0, ?_, by rw [he]; rfl, d0, t0, by rw [he]; rfl, by rw [he]; rfl, hslot,
          ?_, contains_eq_false.1 hcont⟩
        · have : candidateRooms P (scheduleOne P st e).2
              (studentCount P.mstud (scheduleOne P st e).2) =
              candidateRooms P e (studentCount P.mstud e) := by
            rw [he]; rfl
          rw [this]
          exact hcand
        · have : r0.id ∈ (scheduleOne P st e).1.rbs (d0, t0) := by
            rw [hst]; exact commitSt_rbs_self
          exact scheduleLoop_rbs_mono P es _ this
    · have hp2 : ∀ a ∈ es, a.status = pendingStatus := fun a ha =>
        hp a (List.mem_cons_of_mem e ha)
      obtain ⟨r, hr1, hr2, d, t, hd, ht, hs, hin, hout⟩ := ih (scheduleOne P st e).1 hp2 h2 hs2
      exact ⟨r, hr1, hr2, d, t, hd, ht, hs, hin, fun hmem =>
        hout (scheduleOne_rbs_mono P st e hmem)⟩

theorem scheduleLoop_spd_pairwise (P : SParams) :
    ∀ (es : List Exam) (st : SchedSt),
      (∀ e ∈ es, e.status = pendingStatus) →
      List.Pairwise (dayClashFree P.mstud) (scheduleLoop P st es).2 := by
  intro es
  induction es with
  | nil => intro st _; exact List.Pairwise.nil
  | cons e es ih =>
    intro st hp
    have hp2 : ∀ a ∈ es, a.status = pendingStatus := fun a ha =>
      hp a (List.mem_cons_of_mem e ha)
    refine List.Pairwise.cons ?_ (ih (scheduleOne P st e).1 hp2)
    intro e2 h2 hs1 hs2 s hsA hsB hdates
    rcases scheduleOne_cases P st e with hc | ⟨d0, t0, r0, hf, hc⟩
    · have he : (scheduleOne P st e).2 = e := by rw [hc]
      rw [he] at hs1
      exact statuses_ne ((hp e (List.mem_cons_self e es)).symm.trans hs1)
    · have he : (scheduleOne P st e).2 = commitExam e d0 t0 r0.id := by rw [hc]
      have hst : (scheduleOne P st e).1 = commitSt st (P.mstud e.module_id) d0 t0 r0.id := by
        rw [hc]
      obtain ⟨d2, hd2, _, hout⟩ := scheduleLoop_spd_facts P es (scheduleOne P st e).1 hp2 h2 hs2
      have hd1 : (scheduleOne P st e).2.scheduled_date = some d0 := by rw [he]; rfl
      have hdd : d0 = d2 := by
        rw [hd1, hd2] at hdates
        exact Option.some.inj hdates
      have hsA2 : s ∈ P.mstud e.module_id := by
        have hmod : P.mstud (scheduleOne P st e).2.module_id = P.mstud e.module_id := by
          rw [he]
          rfl
        rw [hmod] at hsA
        exact hsA
      have hmem : s ∈ (scheduleOne P st e).1.spd d2 := by
        rw [hst, ← hdd]
        exact commitSt_spd_self hsA2
      exact hout s hsB hmem

theorem scheduleLoop_room_pairwise (P : SParams) :
    ∀ (es : List Exam) (st : SchedSt),
      (∀ e ∈ es, e.status = pendingStatus) →
      List.Pairwise roomClashFree (scheduleLoop P st es).2 := by
  intro es
  induction es with
  | nil => intro st _; exact List.Pairwise.nil
  | cons e es ih =>
    intro st hp
    have hp2 : ∀ a ∈ es, a.status = pendingStatus := fun a ha =>
      hp a (List.mem_cons_of_mem e ha)
    refine List.Pairwise.cons ?_ (ih (scheduleOne P st e).1 hp2)
    intro e2 h2 hs1 hs2 hshare
    obtain ⟨hroom, hdate, htime⟩ := hshare
    rcases scheduleOne_cases P st e with hc | ⟨d0, t0, r0, hf, hc⟩
    · have he : (scheduleOne P st e).2 = e := by rw [hc]
      rw [he] at hs1
      exact statuses_ne ((hp e (List.mem_cons_self e es)).symm.trans hs1)
    · have he : (scheduleOne P st e).2 = commitExam e d0 t0 r0.id := by rw [hc]
      have hst : (scheduleOne P st e).1 = commitSt st (P.mstud e.module_id) d0 t0 r0.id := by
        rw [hc]
      obtain ⟨r2, _, hr2, d2, t2, hd2, ht2, _, _, hout⟩ :=
        scheduleLoop_room_facts P es (scheduleOne P st e).1 hp2 h2 hs2
      have hd1 : (scheduleOne P st e).2.scheduled_date = some d0 := by rw [he]; rfl
      have ht1 : (scheduleOne P st e).2.start_time = some t0 := by rw [he]; rfl
      have hr1 : (scheduleOne P st e).2.room_id = some r0.id := by rw [he]; rfl
      have hdd : d0 = d2 := Option.some.inj ((hd1.symm.trans hdate).trans hd2)
      have htt : t0 = t2 := Option.some.inj ((ht1.symm.trans htime).trans ht2)
      have hrr : r0.id = r2.id := Option.some.inj ((hr1.symm.trans hroom).trans hr2)
      apply hout
      rw [← hdd, ← htt, ← hrr, hst]
      exact commitSt_rbs_self

/-! ## Prefill lemmas (scheduling.py:268-272) -/

theorem prefill_spd (mstud : Nat → List Nat) (st : SchedSt) (ex : Exam) (d2 : Nat) :
    (prefill mstud st ex).spd d2 =
      match ex.scheduled_date with
      | none => st.spd d2
      | some d =>
        if mstud ex.module_id = [] then st.spd d2
        else if d2 = d then mstud ex.module_id ++ st.spd d2 else st.spd d2 := by
  unfold prefill
  cases ex.scheduled_date with
  | none => rfl
  | some d =>
    by_cases hnil : mstud ex.module_id = []
    · simp only [if_pos hnil]
    · simp only [if_neg hnil]
      cases ex.start_time <;> cases ex.room_id <;> rfl

theorem prefill_rbs (mstud : Nat → List Nat) (st : SchedSt) (ex : Exam) (sl : Nat × Nat) :
    (prefill mstud st ex).rbs sl =
      match ex.scheduled_date, ex.start_time, ex.room_id with
      | some d, some t, some rid =>
        if mstud ex.module_id = [] then st.rbs sl
        else if sl = (d, t) then rid :: st.rbs sl else st.rbs sl
      | _, _, _ => st.rbs sl := by
  unfold prefill
  cases ex.scheduled_date with
  | none => rfl
  | some d =>
    by_cases hnil : mstud ex.module_id = []
    · simp only [if_pos hnil]
      cases ex.start_time <;> cases ex.room_id <;> rfl
    · simp only [if_neg hnil]
      cases ex.start_time <;> cases ex.room_id <;> rfl

theorem prefill_spd_mono (mstud : Nat → List Nat) (st : SchedSt) (ex : Exam)
    {d s : Nat} (h : s ∈ st.spd d) : s ∈ (prefill mstud st ex).spd d := by
  rw [prefill_spd]
  split
  · exact h
  · split
    · exact h
    · split
      · exact List.mem_append_right _ h
      · exact h

theorem prefill_rbs_mono (mstud : Nat → List Nat) (st : SchedSt) (ex : Exam)
    {sl : Nat × Nat} {x : Nat} (h : x ∈ st.rbs sl) : x ∈ (prefill mstud st ex).rbs sl := by
  rw [prefill_rbs]
  split
  · split
    · exact h
    · split
      · exact List.mem_cons_of_mem _ h
      · exact h
  · exact h

theorem prefill_counts (mstud : Nat → List Nat) (st : SchedSt) (ex : Exam) :
    (prefill mstud st ex).scheduled = st.scheduled ∧ (prefill mstud st ex).failed = st.failed := by
  unfold prefill
  split
  · exact ⟨rfl, rfl⟩
  · split
    · exact ⟨rfl, rfl⟩
    · split
      · exact ⟨rfl, rfl⟩
      · exact ⟨rfl, rfl⟩

theorem prefill_spd_self (mstud : Nat → List Nat) (st : SchedSt) (ex : Exam)
    {d : Nat} (hd : ex.scheduled_date = some d) {s : Nat} (hs : s ∈ mstud ex.module_id) :
    s ∈ (prefill mstud st ex).spd d := by
  have hne : ¬(mstud ex.module_id = []) := by
    intro hnil
    rw [hnil] at hs
    exact List.not_mem_nil s hs
  rw [prefill_spd, hd]
  simp only [if_neg hne, if_pos rfl]
  exact List.mem_append_left _ hs

theorem prefill_rbs_self (mstud : Nat → List Nat) (st : SchedSt) (ex : Exam)
    {d t rid : Nat} (hd : ex.scheduled_date = some d) (ht : ex.start_time = some t)
    (hr : ex.room_id = some rid) (hne : mstud ex.module_id ≠ []) :
    rid ∈ (prefill mstud st ex).rbs (d, t) := by
  rw [prefill_rbs, hd, ht, hr]
  simp only [if_neg hne, if_pos rfl]
  exact List.mem_cons_self _ _

theorem prefillList_spd_mono (mstud : Nat → List Nat) :
    ∀ (l : List Exam) (st : SchedSt) {d s : Nat},
      s ∈ st.spd d → s ∈ (l.foldl (prefill mstud) st).spd d
  | [], _, _, _, h => h
  | ex :: l, st, _, _, h =>
    prefillList_spd_mono mstud l (prefill mstud st ex) (prefill_spd_mono mstud st ex h)

theorem prefillList_rbs_mono (mstud : Nat → List Nat) :
    ∀ (l : List Exam) (st : SchedSt) {sl : Nat × Nat} {x : Nat},
      x ∈ st.rbs sl → x ∈ (l.foldl (prefill mstud) st).rbs sl
  | [], _, _, _, h => h
  | ex :: l, st, _, _, h =>
    prefillList_rbs_mono mstud l (prefill mstud st ex) (prefill_rbs_mono mstud st ex h)

theorem prefillList_counts (mstud : Nat → List Nat) :
    ∀ (l : List Exam) (st : SchedSt),
      (l.foldl (prefill mstud) st).scheduled = st.scheduled ∧
      (l.foldl (prefill mstud) st).failed = st.failed
  | [], _ => ⟨rfl, rfl⟩
  | ex :: l, st => by
    obtain ⟨h1, h2⟩ := prefillList_counts mstud l (prefill mstud st ex)
    obtain ⟨h3, h4⟩ := prefill_counts mstud st ex
    exact ⟨h1.trans h3, h2.trans h4⟩

theorem prefillList_spd (mstud : Nat → List Nat) :
    ∀ (l : List Exam) (st : SchedSt) {ex : Exam}, ex ∈ l →
      ∀ {d : Nat}, ex.scheduled_date = some d → ∀ {s : Nat}, s ∈ mstud ex.module_id →
      s ∈ (l.foldl (prefill mstud) st).spd d := by
  intro l
  induction l with
  | nil => intro st ex h; exact absurd h (List.not_mem_nil ex)
  | cons a l ih =>
    intro st ex hmem d hd s hs
    rcases List.mem_cons.1 hmem with rfl | hmem
    · exact prefillList_spd_mono mstud l _ (prefill_spd_self mstud st ex hd hs)
    · exact ih (prefill mstud st a) hmem hd hs

theorem prefillList_rbs (mstud : Nat → List Nat) :
    ∀ (l : List Exam) (st : SchedSt) {ex : Exam}, ex ∈ l →
      ∀ {d t rid : Nat}, ex.scheduled_date = some d → ex.start_time = some t →
      ex.room_id = some rid → mstud ex.module_id ≠ [] →
      rid ∈ (l.foldl (prefill mstud) st).rbs (d, t) := by
  intro l
  induction l with
  | nil => intro st ex h; exact absurd h (List.not_mem_nil ex)
  | cons a l ih =>
    intro st ex hmem d t rid hd ht hr hne
    rcases List.mem_cons.1 hmem with rfl | hmem
    · exact prefillList_rbs_mono mstud l _ (prefill_rbs_self mstud st ex hd ht hr hne)
    · exact ih (prefill mstud st a) hmem hd ht hr hne

/-! ## Plumbing: from the endpoint to the loop -/

theorem mem_pendingExamsOf {db : DB} {sid : Nat} {e : Exam} :
    e ∈ pendingExamsOf db sid ↔
      e ∈ db.exams ∧ e.session_id = sid ∧ e.status = pendingStatus := by
  unfold pendingExamsOf
  rw [mem_sortBy, List.mem_filter]
  simp [and_assoc]

theorem mem_existingExamsOf {db : DB} {sid : Nat} {e : Exam} :
    e ∈ existingExamsOf db sid ↔
      e ∈ db.exams ∧ e.session_id = sid ∧ e.status = scheduledStatus := by
  unfold existingExamsOf
  rw [List.mem_filter]
  simp [and_assoc]

theorem pendingExamsOf_statuses (db : DB) (sid : Nat) :
    ∀ e ∈ pendingExamsOf db sid, e.status = pendingStatus :=
  fun _ he => (mem_pendingExamsOf.1 he).2.2

theorem pendingIds_nodup {db : DB} (hnodup : (db.exams.map (fun e => e.id)).Nodup) (sid : Nat) :
    ((pendingExamsOf db sid).map (fun e => e.id)).Nodup := by
  have hfil : ((db.exams.filter
      (fun e => e.session_id == sid && e.status == pendingStatus)).map (fun e => e.id)).Nodup :=
    List.Nodup.sublist (List.Sublist.map _ (List.filter_sublist _)) hnodup
  unfold pendingExamsOf
  exact (List.Perm.nodup_iff (List.Perm.map _ (sortBy_perm _ _))).2 hfil

theorem schedule_ok (db : DB) (sid : Nat) {s : ExamSession} (hs : sessionOf db sid = some s) :
    schedule_entire_session db sid = .ok
      ({ db with
          exams := db.exams.map
            (fun e => (((runOf db sid s).2.find? (fun p => p.id == e.id)).getD e)) },
       { total_exams := (pendingExamsOf db sid).length
         scheduled_count := (runOf db sid s).1.scheduled
         failed_count := (runOf db sid s).1.failed }) := by
  unfold schedule_entire_session
  rw [hs]

theorem schedule_ok_elim {db : DB} {sid : Nat} {db2 : DB} {res : SessionScheduleResult}
    (h : schedule_entire_session db sid = .ok (db2, res)) :
    ∃ s, sessionOf db sid = some s ∧
      db2.exams = db.exams.map
        (fun e => (((runOf db sid s).2.find? (fun p => p.id == e.id)).getD e)) ∧
      db2.sessions = db.sessions ∧
      res.total_exams = (pendingExamsOf db sid).length ∧
      res.scheduled_count = (runOf db sid s).1.scheduled ∧
      res.failed_count = (runOf db sid s).1.failed := by
  unfold schedule_entire_session at h
  cases hs : sessionOf db sid with
  | none =>
    rw [hs] at h
    exact Except.noConfusion h
  | some s =>
    rw [hs] at h
    injection h with h
    rw [Prod.mk.injEq] at h
    obtain ⟨hA, hB⟩ := h
    subst hA
    subst hB
    exact ⟨s, rfl, rfl, rfl, rfl, rfl, rfl⟩

theorem forall₂_mem_right {l out : List Exam} (h : List.Forall₂ StepRel l out) :
    ∀ {p : Exam}, p ∈ out → ∃ e ∈ l, StepRel e p := by
  induction h with
  | nil => intro p hp; exact absurd hp (List.not_mem_nil p)
  | cons hab _ ih =>
    intro p hp
    rcases List.mem_cons.1 hp with rfl | hp
    · exact ⟨_, List.mem_cons_self _ _, hab⟩
    · obtain ⟨e, he, hrel⟩ := ih hp
      exact ⟨e, List.mem_cons_of_mem _ he, hrel⟩

theorem forall₂_mem_left {l out : List Exam} (h : List.Forall₂ StepRel l out) :
    ∀ {e : Exam}, e ∈ l → ∃ p ∈ out, StepRel e p := by
  induction h with
  | nil => intro e he; exact absurd he (List.not_mem_nil e)
  | cons hab _ ih =>
    intro e he
    rcases List.mem_cons.1 he with rfl | he
    · exact ⟨_, List.mem_cons_self _ _, hab⟩
    · obtain ⟨p, hp, hrel⟩ := ih he
      exact ⟨p, List.mem_cons_of_mem _ hp, hrel⟩

theorem forall₂_lookup {l out : List Exam} (h : List.Forall₂ StepRel l out)
    (hnodup : (l.map (fun e => e.id)).Nodup) :
    ∀ {e p : Exam}, e ∈ l → p ∈ out → p.id = e.id → StepRel e p := by
  induction h with
  | nil => intro e p he; exact absurd he (List.not_mem_nil e)
  | @cons a b l2 out2 hab htail ih =>
    intro e p he hp hid
    have hhead : a.id ∉ l2.map (fun e => e.id) := by
      have := List.nodup_cons.1 hnodup
      exact this.1
    rcases List.mem_cons.1 he with rfl | he
    · rcases List.mem_cons.1 hp with rfl | hp
      · exact hab
      · exfalso
        obtain ⟨q, hq, hrel⟩ := forall₂_mem_right htail hp
        have : q.id ∈ l2.map (fun e2 => e2.id) := List.mem_map_of_mem _ hq
        rw [StepRel_id hrel] at hid
        rw [hid] at this
        exact hhead this
    · rcases List.mem_cons.1 hp with rfl | hp
      · exfalso
        have hba : p.id = a.id := StepRel_id hab
        have : e.id ∈ l2.map (fun e2 => e2.id) := List.mem_map_of_mem _ he
        rw [← hid, hba] at this
        exact hhead this
      · exact ih (List.nodup_cons.1 hnodup).2 he hp hid

theorem find?_id_some {out : List Exam} {i : Nat} (h : ∃ p ∈ out, p.id = i) :
    ∃ p, out.find? (fun q => q.id == i) = some p ∧ p ∈ out ∧ p.id = i := by
  cases hf : out.find? (fun q => q.id == i) with
  | none =>
    exfalso
    rw [List.find?_eq_none] at hf
    obtain ⟨p, hp, hpid⟩ := h
    exact hf p hp (by simp [hpid])
  | some p =>
    refine ⟨p, rfl, List.mem_of_find?_eq_some hf, ?_⟩
    have := List.find?_some hf
    simpa using this

theorem getD_find?_id {out : List Exam} {e : Exam} :
    ((out.find? (fun p => p.id == e.id)).getD e).id = e.id := by
  cases hf : out.find? (fun p => p.id == e.id) with
  | none => rfl
  | some p =>
    have := List.find?_some hf
    simpa using this

theorem final_exam_split {db : DB} {sid : Nat} {s : ExamSession} {e0 : Exam} :
    (((runOf db sid s).2.find? (fun p => p.id == e0.id)).getD e0) = e0 ∨
    (((runOf db sid s).2.find? (fun p => p.id == e0.id)).getD e0) ∈ (runOf db sid s).2 := by
  cases hf : (runOf db sid s).2.find? (fun p => p.id == e0.id) with
  | none => exact Or.inl rfl
  | some p => exact Or.inr (List.mem_of_find?_eq_some hf)

theorem committed_in_out {db : DB} {sid : Nat} {s : ExamSession}
    (hnodup : (db.exams.map (fun e => e.id)).Nodup)
    {e0 e2 : Exam} (he0 : e0 ∈ db.exams)
    (hform : e2 = (((runOf db sid s).2.find? (fun p => p.id == e0.id)).getD e0))
    (hsched : e2.status = scheduledStatus)
    (hwp : wasPendingBefore db e2) :
    e2 ∈ (runOf db sid s).2 := by
  cases hf : (runOf db sid s).2.find? (fun p => p.id == e0.id) with
  | some p =>
    rw [hf] at hform
    rw [hform]
    exact List.mem_of_find?_eq_some hf
  | none =>
    exfalso
    rw [hf] at hform
    simp only [Option.getD_none] at hform
    obtain ⟨ep, hep, hepid, heppending⟩ := hwp
    have he2id : e2.id = e0.id := by rw [hform]
    have hee : ep = e0 := List.inj_on_of_nodup_map hnodup hep he0 (by rw [hepid, he2id])
    rw [hform] at hsched
    rw [hee] at heppending
    rw [heppending] at hsched
    exact statuses_ne hsched

theorem uncommitted_unchanged {db : DB} {sid : Nat} {s : ExamSession}
    {e0 e2 : Exam} (he0 : e0 ∈ db.exams)
    (hform : e2 = (((runOf db sid s).2.find? (fun p => p.id == e0.id)).getD e0))
    (hnw : ¬ wasPendingBefore db e2) :
    e2 ∈ db.exams := by
  cases hf : (runOf db sid s).2.find? (fun p => p.id == e0.id) with
  | none =>
    rw [hf] at hform
    simp only [Option.getD_none] at hform
    rw [hform]
    exact he0
  | some p =>
    exfalso
    rw [hf] at hform
    simp only [Option.getD_some] at hform
    have hp : p ∈ (runOf db sid s).2 := List.mem_of_find?_eq_some hf
    obtain ⟨q, hq, hrel⟩ := forall₂_mem_right
      (scheduleLoop_rel (runParamsOf db s) (pendingExamsOf db sid) (initStOf db sid)) hp
    obtain ⟨hqdb, _, hqpending⟩ := mem_pendingExamsOf.1 hq
    apply hnw
    refine ⟨q, hqdb, ?_, hqpending⟩
    rw [hform]
    exact (StepRel_id hrel).symm

theorem dayClashFree_symm (mstud : Nat → List Nat) : Symmetric (dayClashFree mstud) := by
  intro e1 e2 h hs2 hs1 s hsB hsA
  exact fun heq => h hs1 hs2 s hsA hsB heq.symm

theorem roomClashFree_symm : Symmetric roomClashFree := by
  intro e1 e2 h hs2 hs1 hshare
  exact h hs1 hs2 ⟨hshare.1.symm, hshare.2.1.symm, hshare.2.2.symm⟩

theorem candidateRooms_sub {P : SParams} {e : Exam} {cnt : Nat} {r : ExamRoom}
    (h : r ∈ candidateRooms P e cnt) :
    (r ∈ P.labRooms ∨ r ∈ P.compRooms ∨ r ∈ P.allRooms) ∧ cnt ≤ r.exam_capacity := by
  unfold candidateRooms at h
  split at h
  · obtain ⟨h1, h2⟩ := List.mem_filter.1 h
    exact ⟨Or.inl h1, by simpa using h2⟩
  · split at h
    · obtain ⟨h1, h2⟩ := List.mem_filter.1 h
      exact ⟨Or.inr (Or.inl h1), by simpa using h2⟩
    · obtain ⟨h1, h2⟩ := List.mem_filter.1 h
      exact ⟨Or.inr (Or.inr h1), by simpa using h2⟩

theorem roomsByCapacity_mem {db : DB} {r : ExamRoom} (h : r ∈ roomsByCapacityOf db) :
    r ∈ db.rooms ∧ r.is_active = true ∧ r.is_available = true := by
  unfold roomsByCapacityOf at h
  rw [mem_sortBy, List.mem_filter] at h
  refine ⟨h.1, ?_, ?_⟩
  · have := h.2
    simp only [Bool.and_eq_true] at this
    exact this.1
  · have := h.2
    simp only [Bool.and_eq_true] at this
    exact this.2

theorem runParams_room_mem {db : DB} {s : ExamSession} {r : ExamRoom}
    (h : r ∈ (runParamsOf db s).labRooms ∨ r ∈ (runParamsOf db s).compRooms ∨
      r ∈ (runParamsOf db s).allRooms) :
    r ∈ db.rooms ∧ r.is_active = true ∧ r.is_available = true := by
  rcases h with h | h | h
  · exact roomsByCapacity_mem (List.mem_of_mem_filter h)
  · exact roomsByCapacity_mem (List.mem_of_mem_filter h)
  · exact roomsByCapacity_mem h

theorem scheduleOne_failed_le (P : SParams) (st : SchedSt) (e : Exam) :
    st.failed ≤ (scheduleOne P st e).1.failed := by
  rcases scheduleOne_cases P st e with hc | ⟨d0, t0, r0, _, hc⟩ <;> rw [hc]
  · simp [addFailed]
  · simp [commitSt]

theorem scheduleLoop_failed_le (P : SParams) :
    ∀ (es : List Exam) (st : SchedSt), st.failed ≤ (scheduleLoop P st es).1.failed
  | [], _ => le_refl _
  | e :: es, st =>
    le_trans (scheduleOne_failed_le P st e) (scheduleLoop_failed_le P es (scheduleOne P st e).1)

theorem scheduleLoop_all_scheduled (P : SParams) :
    ∀ (es : List Exam) (st : SchedSt),
      (∀ e ∈ es, e.status = pendingStatus) →
      (scheduleLoop P st es).1.failed = st.failed →
      ∀ p ∈ (scheduleLoop P st es).2, p.status = scheduledStatus := by
  intro es
  induction es with
  | nil => intro st _ _ p hp; exact absurd hp (List.not_mem_nil p)
  | cons e es ih =>
    intro st hp hfail p hpmem
    have h1 : st.failed ≤ (scheduleOne P st e).1.failed := scheduleOne_failed_le P st e
    have h2 : (scheduleOne P st e).1.failed ≤
        (scheduleLoop P (scheduleOne P st e).1 es).1.failed := scheduleLoop_failed_le P es _
    have hfail2 : (scheduleLoop P (scheduleOne P st e).1 es).1.failed = st.failed := hfail
    have heq : (scheduleOne P st e).1.failed = st.failed := by omega
    rcases scheduleOne_cases P st e with hc | ⟨d0, t0, r0, _, hc⟩
    · exfalso
      have : (scheduleOne P st e).1.failed = st.failed + 1 := by rw [hc]; rfl
      omega
    · rcases List.mem_cons.1 hpmem with rfl | hpmem
      · rw [hc]
        rfl
      · refine ih (scheduleOne P st e).1 (fun a ha => hp a (List.mem_cons_of_mem e ha)) ?_ p hpmem
        rw [heq]
        exact hfail2

/-! ## Claim theorems -/

/-- C2: for every successful run of `scheduleSession` on a database with
primary-key-unique exam ids, the run never commits two exams on the same day
whose modules share a student: any two distinct scheduled exams of the
session, at least one of which was pending before the run (i.e. was committed
by it), with a common enrolled student, end up with different scheduled
dates.  Students already busy from previously scheduled exams are included,
since the other exam may be a pre-existing scheduled one. -/
theorem C2_one_exam_per_day (db : DB) (sid : Nat) (db2 : DB) (res : SessionScheduleResult)
    (h : schedule_entire_session db sid = .ok (db2, res))
    (hnodup : (db.exams.map (fun e => e.id)).Nodup)
    (e1 e2 : Exam) (h1 : e1 ∈ db2.exams) (h2 : e2 ∈ db2.exams) (hne : e1.id ≠ e2.id)
    (hs1 : e1.status = scheduledStatus) (hs2 : e2.status = scheduledStatus)
    (hsess2 : e2.session_id = sid)
    (hc1 : wasPendingBefore db e1)
    (stu : Nat) (hst1 : stu ∈ moduleStudents db.enrollments e1.module_id)
    (hst2 : stu ∈ moduleStudents db.enrollments e2.module_id) :
    e1.scheduled_date ≠ e2.scheduled_date := by
  obtain ⟨s, hs, hexams, hsessions, htot, hsch, hfl⟩ := schedule_ok_elim h
  rw [hexams] at h1 h2
  obtain ⟨e0, he0, hfe0⟩ := List.mem_map.1 h1
  obtain ⟨e0b, he0b, hfe0b⟩ := List.mem_map.1 h2
  have he1out : e1 ∈ (runOf db sid s).2 := committed_in_out hnodup he0 hfe0.symm hs1 hc1
  by_cases hwp2 : wasPendingBefore db e2
  · have he2out : e2 ∈ (runOf db sid s).2 := committed_in_out hnodup he0b hfe0b.symm hs2 hwp2
    have hpw := scheduleLoop_spd_pairwise (runParamsOf db s) (pendingExamsOf db sid)
      (initStOf db sid) (pendingExamsOf_statuses db sid)
    have hdcf : dayClashFree (runParamsOf db s).mstud e1 e2 :=
      List.Pairwise.forall (dayClashFree_symm _) hpw he1out he2out
        (fun hcontra => hne (congrArg (fun e => e.id) hcontra))
    exact hdcf hs1 hs2 stu hst1 hst2
  · have he2db : e2 ∈ db.exams := uncommitted_unchanged he0b hfe0b.symm hwp2
    obtain ⟨d, hd, _, hout⟩ := scheduleLoop_spd_facts (runParamsOf db s) (pendingExamsOf db sid)
      (initStOf db sid) (pendingExamsOf_statuses db sid) he1out hs1
    intro hdates
    have he2date : e2.scheduled_date = some d := by rw [← hdates]; exact hd
    have he2ex : e2 ∈ existingExamsOf db sid := mem_existingExamsOf.2 ⟨he2db, hsess2, hs2⟩
    have hmem : stu ∈ (initStOf db sid).spd d :=
      prefillList_spd (moduleStudents db.enrollments) (existingExamsOf db sid) emptySt
        he2ex he2date hst2
    exact hout stu hst1 hmem

/-- C2 witness: on `witDbSched` both exams share student 5 and are committed
by the run, and indeed they land on different days. -/
theorem C2_one_exam_per_day_witness : witExam1.scheduled_date ≠ witExam2.scheduled_date :=
  C2_one_exam_per_day witDbSched 1 witDbSchedAfter
    { total_exams := 2, scheduled_count := 2, failed_count := 0 } (by rfl) (by decide)
    witExam1 witExam2 (by decide) (by decide) (by decide) (by decide) (by decide) (by decide)
    ⟨witPend1, by decide, rfl, rfl⟩ 5 (by decide) (by decide)

/-- C1 (amended): for every successful run with primary-key-unique exam ids,
an exam committed by the run never shares the full
(room_id, scheduled_date, start_time) triple with another scheduled exam of
the session, provided that other exam was itself committed by the run or its
module has at least one enrollment.  (The unamended claim — pre-population
from *every* already-scheduled exam — fails because the pre-population loop
skips scheduled exams whose module has no enrollments; see the
counterexample.) -/
theorem C1_room_slot_exclusive (db : DB) (sid : Nat) (db2 : DB) (res : SessionScheduleResult)
    (h : schedule_entire_session db sid = .ok (db2, res))
    (hnodup : (db.exams.map (fun e => e.id)).Nodup)
    (e1 e2 : Exam) (h1 : e1 ∈ db2.exams) (h2 : e2 ∈ db2.exams) (hne : e1.id ≠ e2.id)
    (hs1 : e1.status = scheduledStatus) (hs2 : e2.status = scheduledStatus)
    (hsess2 : e2.session_id = sid)
    (hc1 : wasPendingBefore db e1)
    (h2alt : wasPendingBefore db e2 ∨ moduleStudents db.enrollments e2.module_id ≠ []) :
    ¬(e1.room_id = e2.room_id ∧ e1.scheduled_date = e2.scheduled_date ∧
      e1.start_time = e2.start_time) := by
  obtain ⟨s, hs, hexams, hsessions, htot, hsch, hfl⟩ := schedule_ok_elim h
  rw [hexams] at h1 h2
  obtain ⟨e0, he0, hfe0⟩ := List.mem_map.1 h1
  obtain ⟨e0b, he0b, hfe0b⟩ := List.mem_map.1 h2
  have he1out : e1 ∈ (runOf db sid s).2 := committed_in_out hnodup he0 hfe0.symm hs1 hc1
  by_cases hwp2 : wasPendingBefore db e2
  · have he2out : e2 ∈ (runOf db sid s).2 := committed_in_out hnodup he0b hfe0b.symm hs2 hwp2
    have hpw := scheduleLoop_room_pairwise (runParamsOf db s) (pendingExamsOf db sid)
      (initStOf db sid) (pendingExamsOf_statuses db sid)
    have hrcf : roomClashFree e1 e2 :=
      List.Pairwise.forall roomClashFree_symm hpw he1out he2out
        (fun hcontra => hne (congrArg (fun e => e.id) hcontra))
    exact hrcf hs1 hs2
  · have henroll : moduleStudents db.enrollments e2.module_id ≠ [] := h2alt.resolve_left hwp2
    have he2db : e2 ∈ db.exams := uncommitted_unchanged he0b hfe0b.symm hwp2
    obtain ⟨r, hrcand, hroom1, d, t, hd1, ht1, hslot, hinF, houtSt0⟩ :=
      scheduleLoop_room_facts (runParamsOf db s) (pendingExamsOf db sid)
        (initStOf db sid) (pendingExamsOf_statuses db sid) he1out hs1
    rintro ⟨hre, hde, hte⟩
    have he2room : e2.room_id = some r.id := by rw [← hre]; exact hroom1
    have he2date : e2.scheduled_date = some d := by rw [← hde]; exact hd1
    have he2time : e2.start_time = some t := by rw [← hte]; exact ht1
    have he2ex : e2 ∈ existingExamsOf db sid := mem_existingExamsOf.2 ⟨he2db, hsess2, hs2⟩
    have hbusy : r.id ∈ (initStOf db sid).rbs (d, t) :=
      prefillList_rbs (moduleStudents db.enrollments) (existingExamsOf db sid) emptySt
        he2ex he2date he2time he2room henroll
    exact houtSt0 hbusy

/-- C1 counterexample: in `cexDb1` exam 1 is already scheduled at
(room 1, day 0, 08:30) but its module has no enrollments, so the room-busy
index is not pre-populated from it; the run then commits exam 2 to the very
same (room, date, time), so the final schedule contains a room-slot
collision, refuting the claim as stated. -/
theorem C1_counterexample :
    (schedule_entire_session cexDb1 1).map (fun p => hasRoomSlotCollision p.1.exams) =
      .ok true := by rfl

/-- C1 witness: on `witDbSched` the two committed exams share the room but
not the full (room, date, time) triple. -/
theorem C1_room_slot_exclusive_witness :
    ¬(witExam1.room_id = witExam2.room_id ∧ witExam1.scheduled_date = witExam2.scheduled_date ∧
      witExam1.start_time = witExam2.start_time) :=
  C1_room_slot_exclusive witDbSched 1 witDbSchedAfter
    { total_exams := 2, scheduled_count := 2, failed_count := 0 } (by rfl) (by decide)
    witExam1 witExam2 (by decide) (by decide) (by decide) (by decide) (by decide) (by decide)
    ⟨witPend1, by decide, rfl, rfl⟩ (Or.inl ⟨witPend2, by decide, rfl, rfl⟩)

/-- C3 (amended): every exam committed by a successful run is assigned an
active, available room whose `exam_capacity` is at least the exam's
*effective* student count — the size of its module's enrolled-student set,
falling back to `expected_students` (or 50 when that is 0) only when the
module has no enrollments.  (The unamended claim — capacity at least
`expected_students` — fails because the code measures the enrolled set when
it is non-empty; see the counterexample.) -/
theorem C3_capacity (db : DB) (sid : Nat) (db2 : DB) (res : SessionScheduleResult)
    (h : schedule_entire_session db sid = .ok (db2, res))
    (hnodup : (db.exams.map (fun e => e.id)).Nodup)
    (e1 : Exam) (h1 : e1 ∈ db2.exams) (hs1 : e1.status = scheduledStatus)
    (hc1 : wasPendingBefore db e1) :
    ∃ r, r ∈ db.rooms ∧ r.is_active = true ∧ r.is_available = true ∧
      e1.room_id = some r.id ∧
      studentCount (moduleStudents db.enrollments) e1 ≤ r.exam_capacity := by
  obtain ⟨s, hs, hexams, hsessions, htot, hsch, hfl⟩ := schedule_ok_elim h
  rw [hexams] at h1
  obtain ⟨e0, he0, hfe0⟩ := List.mem_map.1 h1
  have he1out : e1 ∈ (runOf db sid s).2 := committed_in_out hnodup he0 hfe0.symm hs1 hc1
  obtain ⟨r, hrcand, hroom1, _, _, _, _, _, _, _⟩ :=
    scheduleLoop_room_facts (runParamsOf db s) (pendingExamsOf db sid)
      (initStOf db sid) (pendingExamsOf_statuses db sid) he1out hs1
  obtain ⟨hpool, hcap⟩ := candidateRooms_sub hrcand
  obtain ⟨hdb, hact, havail⟩ := runParams_room_mem hpool
  exact ⟨r, hdb, hact, havail, hroom1, hcap⟩

/-- C3 counterexample: in `cexDb3` the pending exam has
`expected_students = 100` but only one enrolled student, and the run commits
it to the 10-seat room, so a scheduled exam exceeds its room's capacity by
`expected_students`, refuting the claim as stated. -/
theorem C3_counterexample :
    (schedule_entire_session cexDb3 1).map (fun p => hasCapacityShortfall p.1) =
      .ok true := by rfl

/-- C3 witness: on `witDbSched` the committed first exam sits in a room
large enough for its one enrolled student. -/
theorem C3_capacity_witness :
    ∃ r, r ∈ witDbSched.rooms ∧ r.is_active = true ∧ r.is_available = true ∧
      witExam1.room_id = some r.id ∧
      studentCount (moduleStudents witDbSched.enrollments) witExam1 ≤ r.exam_capacity :=
  C3_capacity witDbSched 1 witDbSchedAfter
    { total_exams := 2, scheduled_count := 2, failed_count := 0 } (by rfl) (by decide)
    witExam1 (by decide) (by decide) ⟨witPend1, by decide, rfl, rfl⟩

/-- C10: every successful run of `scheduleSession` returns counts with
`scheduled_count + failed_count = total_exams`, because each pending exam
increments exactly one of the two counters. -/
theorem C10_counts_add_up (db : DB) (sid : Nat) (db2 : DB) (res : SessionScheduleResult)
    (h : schedule_entire_session db sid = .ok (db2, res)) :
    res.scheduled_count + res.failed_count = res.total_exams := by
  obtain ⟨s, hs, hexams, hsessions, htot, hsch, hfl⟩ := schedule_ok_elim h
  rw [htot, hsch, hfl]
  have hcounts := scheduleLoop_counts (runParamsOf db s) (pendingExamsOf db sid) (initStOf db sid)
  have h0 : (initStOf db sid).scheduled = 0 :=
    (prefillList_counts (moduleStudents db.enrollments) (existingExamsOf db sid) emptySt).1
  have h1 : (initStOf db sid).failed = 0 :=
    (prefillList_counts (moduleStudents db.enrollments) (existingExamsOf db sid) emptySt).2
  have hrun : (runOf db sid s).1.scheduled + (runOf db sid s).1.failed =
      (initStOf db sid).scheduled + (initStOf db sid).failed + (pendingExamsOf db sid).length :=
    hcounts
  omega

/-- C10 witness: the run on `cexDb8` returns counts 1 = 0 + 1. -/
theorem C10_counts_add_up_witness :
    (SessionScheduleResult.mk 1 0 1).scheduled_count +
      (SessionScheduleResult.mk 1 0 1).failed_count =
      (SessionScheduleResult.mk 1 0 1).total_exams :=
  C10_counts_add_up cexDb8 1 cexDb8 (SessionScheduleResult.mk 1 0 1) (by rfl)

/-- C7: `scheduleSession` returns NotFound exactly when the target session id
does not exist; on success, every pending exam of the session either appears
unchanged in the final database (infeasible: counted in `failed_count`,
status still pending, schedule fields untouched) or appears committed to a
(date, time, room) with status scheduled — per-exam infeasibility never
aborts the batch and prior commits are not rolled back. -/
theorem C7_error_policy (db : DB) (sid : Nat)
    (hnodup : (db.exams.map (fun e => e.id)).Nodup) :
    (schedule_entire_session db sid = .error .notFound ↔ sessionOf db sid = none) ∧
    (∀ db2 res, schedule_entire_session db sid = .ok (db2, res) →
      ∀ e, e ∈ db.exams → e.session_id = sid → e.status = pendingStatus →
        e ∈ db2.exams ∨ ∃ d t rid, commitExam e d t rid ∈ db2.exams) := by
  constructor
  · constructor
    · intro herr
      cases hs : sessionOf db sid with
      | none => rfl
      | some s =>
        rw [schedule_ok db sid hs] at herr
        exact Except.noConfusion herr
    · intro hnone
      unfold schedule_entire_session
      rw [hnone]
  · intro db2 res hok e hedb hesess hepend
    obtain ⟨s, hs, hexams, hsessions, htot, hsch, hfl⟩ := schedule_ok_elim hok
    have hepmem : e ∈ pendingExamsOf db sid := mem_pendingExamsOf.2 ⟨hedb, hesess, hepend⟩
    obtain ⟨p, hpout, hrel⟩ := forall₂_mem_left
      (scheduleLoop_rel (runParamsOf db s) (pendingExamsOf db sid) (initStOf db sid)) hepmem
    obtain ⟨p2, hfind, hp2out, hp2id⟩ := find?_id_some ⟨p, hpout, StepRel_id hrel⟩
    have hrel2 : StepRel e p2 := forall₂_lookup
      (scheduleLoop_rel (runParamsOf db s) (pendingExamsOf db sid) (initStOf db sid))
      (pendingIds_nodup hnodup sid) hepmem hp2out hp2id
    have hfmem : ((runOf db sid s).2.find? (fun q => q.id == e.id)).getD e ∈ db2.exams := by
      rw [hexams]
      exact List.mem_map_of_mem _ hedb
    have hfe : ((runOf db sid s).2.find? (fun q => q.id == e.id)).getD e = p2 := by
      unfold runOf
      rw [hfind]
      rfl
    rcases hrel2 with hcase | ⟨d, t, rid, hcase⟩
    · left
      rw [hfe, hcase] at hfmem
      exact hfmem
    · right
      refine ⟨d, t, rid, ?_⟩
      rw [hfe, hcase] at hfmem
      exact hfmem

/-- C7 witness: instantiated on `cexDb8`, whose single pending exam is
infeasible (no rooms) yet the run succeeds and leaves it unchanged. -/
theorem C7_error_policy_witness :
    (schedule_entire_session cexDb8 1 = .error .notFound ↔ sessionOf cexDb8 1 = none) ∧
    (∀ db2 res, schedule_entire_session cexDb8 1 = .ok (db2, res) →
      ∀ e, e ∈ cexDb8.exams → e.session_id = 1 → e.status = pendingStatus →
        e ∈ db2.exams ∨ ∃ d t rid, commitExam e d t rid ∈ db2.exams) :=
  C7_error_policy cexDb8 1 (by decide)

/-- C8 (amended): if a run on a database with primary-key-unique exam ids
schedules every pending exam (`failed_count = 0`), then an immediate second
run finds an empty pending list and returns `total_exams = 0`,
`scheduled_count = 0`, `failed_count = 0` with the database unchanged.
(The unamended claim — that this holds for *every* first run — fails when the
first run leaves failed exams pending: the second run retries them; see the
counterexample.) -/
theorem C8_idempotent (db : DB) (sid : Nat) (db1 : DB) (res1 : SessionScheduleResult)
    (h1 : schedule_entire_session db sid = .ok (db1, res1))
    (hf : res1.failed_count = 0) :
    schedule_entire_session db1 sid =
      .ok (db1, { total_exams := 0, scheduled_count := 0, failed_count := 0 }) := by
  obtain ⟨s, hs, hexams, hsessions, htot, hsch, hfl⟩ := schedule_ok_elim h1
  have hallsched : ∀ p ∈ (runOf db sid s).2, p.status = scheduledStatus := by
    apply scheduleLoop_all_scheduled (runParamsOf db s) (pendingExamsOf db sid)
      (initStOf db sid) (pendingExamsOf_statuses db sid)
    have h0 : (initStOf db sid).failed = 0 :=
      (prefillList_counts (moduleStudents db.enrollments) (existingExamsOf db sid) emptySt).2
    rw [h0]
    rw [hfl] at hf
    exact hf
  have hnopending : ∀ e2 ∈ db1.exams, ¬(e2.session_id = sid ∧ e2.status = pendingStatus) := by
    intro e2 h2 hand
    obtain ⟨h2sess, h2pend⟩ := hand
    rw [hexams] at h2
    obtain ⟨e0, he0, hfe0⟩ := List.mem_map.1 h2
    cases hff : (runOf db sid s).2.find? (fun q => q.id == e0.id) with
    | some p =>
      have he2p : e2 = p := by rw [← hfe0, hff]; rfl
      have hpst := hallsched p (List.mem_of_find?_eq_some hff)
      rw [← he2p] at hpst
      exact statuses_ne (h2pend.symm.trans hpst)
    | none =>
      have he2e0 : e2 = e0 := by rw [← hfe0, hff]; rfl
      have he0p : e0 ∈ pendingExamsOf db sid := by
        refine mem_pendingExamsOf.2 ⟨he0, ?_, ?_⟩
        · rw [← he2e0]; exact h2sess
        · rw [← he2e0]; exact h2pend
      obtain ⟨p, hpout, hrel⟩ := forall₂_mem_left
        (scheduleLoop_rel (runParamsOf db s) (pendingExamsOf db sid) (initStOf db sid)) he0p
      rw [List.find?_eq_none] at hff
      exact hff p hpout (by simp [StepRel_id hrel])
  have hpe : pendingExamsOf db1 sid = [] := by
    unfold pendingExamsOf
    have hfil : db1.exams.filter (fun e => e.session_id == sid && e.status == pendingStatus)
        = [] := by
      rw [List.filter_eq_nil_iff]
      intro a ha hcond
      simp only [Bool.and_eq_true, beq_iff_eq] at hcond
      exact hnopending a ha hcond
    rw [hfil]
    rfl
  have hs1 : sessionOf db1 sid = some s := by
    unfold sessionOf
    unfold sessionOf at hs
    rw [hsessions]
    exact hs
  have hrun : runOf db1 sid s = (initStOf db1 sid, []) := by
    unfold runOf
    rw [hpe]
    rfl
  have hmap : db1.exams.map
      (fun e => (((runOf db1 sid s).2.find? (fun p => p.id == e.id)).getD e)) = db1.exams := by
    rw [hrun]
    exact List.map_id'' (fun e => rfl) _
  rw [schedule_ok db1 sid hs1, hmap, hpe, hrun]
  have hsched0 : (initStOf db1 sid).scheduled = 0 :=
    (prefillList_counts (moduleStudents db1.enrollments) (existingExamsOf db1 sid) emptySt).1
  have hfailed0 : (initStOf db1 sid).failed = 0 :=
    (prefillList_counts (moduleStudents db1.enrollments) (existingExamsOf db1 sid) emptySt).2
  show Except.ok (({ db1 with exams := db1.exams } : DB),
      ({ total_exams := ([] : List Exam).length
         scheduled_count := (initStOf db1 sid).scheduled
         failed_count := (initStOf db1 sid).failed } : SessionScheduleResult)) =
    Except.ok (db1, { total_exams := 0, scheduled_count := 0, failed_count := 0 })
  rw [hsched0, hfailed0]
  rfl

/-- C8 counterexample: on `cexDb8` the first run fails its single exam
(`failed_count = 1`) and leaves it pending, so the second run sees it again
and returns `total_exams = 1`, not 0, refuting the claim as stated. -/
theorem C8_counterexample :
    (schedule_entire_session cexDb8 1).map
      (fun p => (schedule_entire_session p.1 1).map (fun q => q.2.total_exams)) =
      .ok (.ok 1) := by rfl

/-- C8 witness: the run on `witDbSched` schedules everything, and the second
run is a no-op returning zero counts. -/
theorem C8_idempotent_witness :
    schedule_entire_session witDbSchedAfter 1 =
      .ok (witDbSchedAfter, { total_exams := 0, scheduled_count := 0, failed_count := 0 }) :=
  C8_idempotent witDbSched 1 witDbSchedAfter
    { total_exams := 2, scheduled_count := 2, failed_count := 0 } (by rfl) (by rfl)

/-- C6: the standalone call of `availableSlots` — without the batch-supplied
busy structures — crashes instead of returning slots: on `bugDb6` (existing
exam, existing one-day session, one compatible room) the code reaches
`rooms_busy_at_slot.get(...)` with `rooms_busy_at_slot = None`
(scheduling.py:129) and raises `AttributeError`, contrary to the claim that
the call terminates without error with at most `limit` slots. -/
theorem C6_standalone_crash :
    get_available_slots bugDb6 1 20 none none none = .error .attributeError := by rfl

/-! ## Lemmas about the supervisor assigner -/

theorem fillBusy_ok (activeIds : List Nat) (exams : List Exam) :
    ∀ (l : List ExamSupervisor) (st : AState),
      (∀ sup ∈ l, sup.professor_id ∈ activeIds) →
      ∃ st2, fillBusy activeIds exams l st = .ok st2 := by
  intro l
  induction l with
  | nil => intro st _; exact ⟨st, rfl⟩
  | cons sup rest ih =>
    intro st hall
    unfold fillBusy
    cases hfind : exams.find? (fun e => e.id == sup.exam_id) with
    | none => exact ih st (fun a ha => hall a (List.mem_cons_of_mem sup ha))
    | some ex =>
      simp only []
      rw [if_pos (hall sup (List.mem_cons_self sup rest))]
      exact ih _ (fun a ha => hall a (List.mem_cons_of_mem sup ha))

theorem assign_ok_elim {db : DB} {sid : Nat} {rand : Nat → Rat} {db2 : DB} {resp : AssignResponse}
    (h : assign_exam_supervisors db sid rand = .ok (db2, resp)) :
    (db2 = db ∧ resp = .noExams ∧ scheduledExamsOf db sid = []) ∨
    (∃ st0, fillBusy ((activeProfsOf db).map (fun p => p.id)) (scheduledExamsOf db sid)
        (existingAssignmentsOf db sid) emptyAState = .ok st0 ∧
      db2.supervisors = db.supervisors ++ (assignRunOf db sid rand st0).recs) := by
  unfold assign_exam_supervisors at h
  cases hs : db.sessions.find? (fun s => s.id == sid) with
  | none =>
    rw [hs] at h
    exact Except.noConfusion h
  | some s =>
    rw [hs] at h
    by_cases hempty : (scheduledExamsOf db sid).isEmpty = true
    · rw [if_pos hempty] at h
      injection h with h
      rw [Prod.mk.injEq] at h
      exact Or.inl ⟨h.1.symm, h.2.symm, List.isEmpty_iff.1 hempty⟩
    · rw [if_neg hempty] at h
      cases hfb : fillBusy ((activeProfsOf db).map (fun p => p.id)) (scheduledExamsOf db sid)
          (existingAssignmentsOf db sid) emptyAState with
      | error e =>
        rw [hfb] at h
        exact Except.noConfusion h
      | ok st0 =>
        rw [hfb] at h
        injection h with h
        rw [Prod.mk.injEq] at h
        obtain ⟨h1, h2⟩ := h
        refine Or.inr ⟨st0, rfl, ?_⟩
        rw [← h1]

/-- C9 (amended): on an existing session whose pre-existing supervisor rows
for the session's scheduled exams all reference active professors,
`assignSupervisors` returns the three counts whenever at least one scheduled
exam exists; with no scheduled exams it takes the early return and produces a
message-only response carrying no counts.  (The unamended claim — counts in
every case including the empty one — fails on the early return; see the
counterexample.) -/
theorem C9_returns_counts (db : DB) (sid : Nat) (rand : Nat → Rat) (s : ExamSession)
    (hs : db.sessions.find? (fun x => x.id == sid) = some s)
    (hfill : ∀ sup ∈ db.supervisors,
      (scheduledExamsOf db sid).any (fun e => e.id == sup.exam_id) = true →
      sup.professor_id ∈ (activeProfsOf db).map (fun p => p.id)) :
    (scheduledExamsOf db sid = [] → assign_exam_supervisors db sid rand = .ok (db, .noExams)) ∧
    (scheduledExamsOf db sid ≠ [] →
      ∃ db2 a pu avg, assign_exam_supervisors db sid rand = .ok (db2, .report a pu avg)) := by
  constructor
  · intro hnil
    unfold assign_exam_supervisors
    rw [hs]
    rw [if_pos (by rw [hnil]; rfl)]
  · intro hne
    have hempty : (scheduledExamsOf db sid).isEmpty = false := by
      cases hE : scheduledExamsOf db sid with
      | nil => exact absurd hE hne
      | cons a l => rfl
    obtain ⟨st0, hfb⟩ := fillBusy_ok ((activeProfsOf db).map (fun p => p.id))
      (scheduledExamsOf db sid) (existingAssignmentsOf db sid) emptyAState
      (fun sup hsup => hfill sup (List.mem_of_mem_filter hsup) ((List.mem_filter.1 hsup).2))
    have hfinal : assign_exam_supervisors db sid rand = .ok
        ({ db with supervisors := db.supervisors ++ (assignRunOf db sid rand st0).recs },
         .report (assignRunOf db sid rand st0).nAssign
           (((dedupL ((activeProfsOf db).map (fun p => p.id))).filter
             (fun pid => 0 < (assignRunOf db sid rand st0).load pid)).length)
           (if (activeProfsOf db).isEmpty then 0
            else (((dedupL ((activeProfsOf db).map (fun p => p.id))).map
                (assignRunOf db sid rand st0).load).sum : Rat) /
              ((activeProfsOf db).length : Rat))) := by
      unfold assign_exam_supervisors
      rw [hs, hempty]
      simp only [Bool.false_eq_true, if_false]
      rw [hfb]
    exact ⟨_, _, _, _, hfinal⟩

/-- C9 counterexample: on `cexDb9` (the session exists but has no scheduled
exams) the endpoint returns the message-only response without any counts,
refuting the claim as stated. -/
theorem C9_counterexample :
    (assign_exam_supervisors cexDb9 1 (fun _ => 0)).map (fun p => hasCounts p.2) =
      .ok false := by rfl

/-- C9 witness: on `witDb9` (one scheduled exam, one active professor) the
endpoint returns a counts report. -/
theorem C9_returns_counts_witness :
    (scheduledExamsOf witDb9 1 = [] →
      assign_exam_supervisors witDb9 1 (fun _ => 0) = .ok (witDb9, .noExams)) ∧
    (scheduledExamsOf witDb9 1 ≠ [] →
      ∃ db2 a pu avg, assign_exam_supervisors witDb9 1 (fun _ => 0) =
        .ok (db2, .report a pu avg)) :=
  C9_returns_counts witDb9 1 (fun _ => 0) sessOneDay (by rfl) (by decide)

/-! ## Busy-set and counting lemmas for the supervisor assigner -/

theorem addSlot_mono {busy : Nat → List (Option Nat × Option Nat)} {pid : Nat}
    {sl : Option Nat × Option Nat} {q : Nat} {x : Option Nat × Option Nat}
    (h : x ∈ busy q) : x ∈ addSlot busy pid sl q := by
  unfold addSlot
  by_cases hq : q = pid
  · subst hq
    by_cases hmem : sl ∈ busy q
    · simp only [if_pos rfl, if_pos hmem]
      exact h
    · simp only [if_pos rfl, if_neg hmem]
      exact List.mem_cons_of_mem _ h
  · simp only [if_neg hq]
    exact h

theorem addSlot_self {busy : Nat → List (Option Nat × Option Nat)} {pid : Nat}
    {sl : Option Nat × Option Nat} : sl ∈ addSlot busy pid sl pid := by
  unfold addSlot
  by_cases hmem : sl ∈ busy pid
  · simp only [if_pos rfl, if_pos hmem]
    exact hmem
  · simp only [if_pos rfl, if_neg hmem]
    exact List.mem_cons_self _ _

theorem addSlot_other {busy : Nat → List (Option Nat × Option Nat)} {pid : Nat}
    {sl : Option Nat × Option Nat} {q : Nat} (hq : q ≠ pid) :
    addSlot busy pid sl q = busy q := by
  unfold addSlot
  simp only [if_neg hq]

theorem addSlot_eq_cons {busy : Nat → List (Option Nat × Option Nat)} {pid : Nat}
    {sl : Option Nat × Option Nat} (hmem : sl ∉ busy pid) :
    addSlot busy pid sl pid = sl :: busy pid := by
  unfold addSlot
  simp only [if_pos rfl, if_neg hmem]
  simp

theorem addSlot_nodup {busy : Nat → List (Option Nat × Option Nat)} {pid : Nat}
    {sl : Option Nat × Option Nat} (h : ∀ q, (busy q).Nodup) :
    ∀ q, ((addSlot busy pid sl) q).Nodup := by
  intro q
  by_cases hq : q = pid
  · subst hq
    by_cases hmem : sl ∈ busy q
    · unfold addSlot
      simp only [if_pos rfl, if_pos hmem]
      exact h q
    · rw [addSlot_eq_cons hmem]
      exact List.nodup_cons.2 ⟨hmem, h q⟩
  · rw [addSlot_other hq]
    exact h q

theorem dayCount_addSlot_same {busy : Nat → List (Option Nat × Option Nat)} {pid : Nat}
    {sl : Option Nat × Option Nat} (hmem : sl ∉ busy pid) {d : Option Nat} :
    dayCount (addSlot busy pid sl) pid d =
      dayCount busy pid d + (if sl.1 == d then 1 else 0) := by
  unfold dayCount
  rw [addSlot_eq_cons hmem]
  rw [List.filter_cons]
  by_cases hd : (sl.1 == d) = true
  · rw [if_pos hd, if_pos hd]
    simp [Nat.add_comm]
  · rw [if_neg hd, if_neg hd]
    simp

theorem dayCount_addSlot_other {busy : Nat → List (Option Nat × Option Nat)} {pid : Nat}
    {sl : Option Nat × Option Nat} {q : Nat} (hq : q ≠ pid) {d : Option Nat} :
    dayCount (addSlot busy pid sl) q d = dayCount busy q d := by
  unfold dayCount
  rw [addSlot_other hq]

theorem supsOnDate_append (E : List Exam) (l1 l2 : List ExamSupervisor) (pid d : Nat) :
    supsOnDate E (l1 ++ l2) pid d = supsOnDate E l1 pid d + supsOnDate E l2 pid d := by
  unfold supsOnDate
  rw [List.filter_append, List.length_append]

theorem supsOnDate_single (E : List Exam) (ns : ExamSupervisor) (pid d : Nat) :
    supsOnDate E [ns] pid d = if supOnDate E pid d ns then 1 else 0 := by
  unfold supsOnDate
  rw [List.filter_cons]
  by_cases hh : supOnDate E pid d ns = true
  · rw [if_pos hh, if_pos hh]
    rfl
  · rw [if_neg hh, if_neg hh]
    rfl

theorem find?_id_self : ∀ {E : List Exam}, ((E.map (fun x => x.id)).Nodup) →
    ∀ {e : Exam}, e ∈ E → E.find? (fun x => x.id == e.id) = some e := by
  intro E
  induction E with
  | nil => intro _ e he; exact absurd he (List.not_mem_nil e)
  | cons a rest ih =>
    intro hnd e he
    have hhead : a.id ∉ rest.map (fun x => x.id) := (List.nodup_cons.1 hnd).1
    rcases List.mem_cons.1 he with rfl | he
    · unfold List.find?
      simp only [beq_self_eq_true]
    · have hne : (a.id == e.id) = false := by
        rw [beq_eq_false_iff_ne]
        intro hcontra
        apply hhead
        rw [hcontra]
        exact List.mem_map_of_mem _ he
      unfold List.find?
      rw [hne]
      exact ih (List.nodup_cons.1 hnd).2 he

theorem slotOfSup_of_exam {E : List Exam} (hE : (E.map (fun x => x.id)).Nodup)
    {e : Exam} (he : e ∈ E) {ns : ExamSupervisor} (hid : ns.exam_id = e.id) :
    slotOfSup E ns = some (e.scheduled_date, e.start_time) := by
  unfold slotOfSup
  rw [hid, find?_id_self hE he]
  rfl

theorem candLoop_mem (busy : Nat → List (Option Nat × Option Nat)) (load : Nat → Nat)
    (e : Exam) (deptId : Option Nat) (curSups : List ExamSupervisor) (rand : Nat → Rat) :
    ∀ (ps : List Professor) (k : Nat) {c : Rat × Nat},
      c ∈ (candLoop busy load e deptId curSups rand ps k).1 →
      ∃ p ∈ ps, p.id = c.2 ∧ (e.scheduled_date, e.start_time) ∉ busy p.id ∧
        dayCount busy p.id e.scheduled_date < effectiveLimit p := by
  intro ps
  induction ps with
  | nil => intro k c hc; exact absurd hc (List.not_mem_nil c)
  | cons p ps ih =>
    intro k c hc
    unfold candLoop at hc
    by_cases h1 : (e.scheduled_date, e.start_time) ∈ busy p.id
    · rw [if_pos h1] at hc
      obtain ⟨q, hq, hrest⟩ := ih k hc
      exact ⟨q, List.mem_cons_of_mem p hq, hrest⟩
    · rw [if_neg h1] at hc
      by_cases h2 : effectiveLimit p ≤ dayCount busy p.id e.scheduled_date
      · rw [if_pos h2] at hc
        obtain ⟨q, hq, hrest⟩ := ih k hc
        exact ⟨q, List.mem_cons_of_mem p hq, hrest⟩
      · rw [if_neg h2] at hc
        by_cases h3 : curSups.any (fun s2 => s2.professor_id == p.id) = true
        · rw [if_pos h3] at hc
          obtain ⟨q, hq, hrest⟩ := ih k hc
          exact ⟨q, List.mem_cons_of_mem p hq, hrest⟩
        · rw [if_neg h3] at hc
          rcases List.mem_cons.1 hc with rfl | hc
          · exact ⟨p, List.mem_cons_self p ps, rfl, h1, Nat.lt_of_not_le h2⟩
          · obtain ⟨q, hq, hrest⟩ := ih (k + 1) hc
            exact ⟨q, List.mem_cons_of_mem p hq, hrest⟩

theorem dayCount_addSlot_pair {busy : Nat → List (Option Nat × Option Nat)} {pid : Nat}
    {d0 t0 : Option Nat} (hmem : (d0, t0) ∉ busy pid) {d : Option Nat} :
    dayCount (addSlot busy pid (d0, t0)) pid d =
      dayCount busy pid d + (if d0 == d then 1 else 0) := by
  rw [dayCount_addSlot_same hmem]

/-- One pick of `pickLoop` preserves the assigner invariant: the new
supervisor row is placed at a slot its professor was not yet busy at, below
their daily limit. -/
theorem AInv_step (E : List Exam) (profs : List Professor)
    (hprofIds : (profs.map (fun x => x.id)).Nodup)
    (hE : (E.map (fun x => x.id)).Nodup)
    {e : Exam} (he : e ∈ E)
    {st : AState} (hinv : AInv E profs st)
    {p : Professor} (hp : p ∈ profs) {c2 : Nat} (hpid : p.id = c2)
    (hslot : (e.scheduled_date, e.start_time) ∉ st.busy p.id)
    (hday : dayCount st.busy p.id e.scheduled_date < effectiveLimit p)
    (ns : ExamSupervisor) (hnse : ns.exam_id = e.id) (hnsp : ns.professor_id = c2)
    (ld : Nat → Nat) (na k2 : Nat) :
    AInv E profs { busy := addSlot st.busy c2 (e.scheduled_date, e.start_time)
                   load := ld, recs := st.recs ++ [ns], nAssign := na, k := k2 } := by
  subst hpid
  obtain ⟨hA, hB, hC, hD⟩ := hinv
  refine ⟨?_, ?_, ?_, ?_⟩
  · show ∀ r2 ∈ st.recs ++ [ns], ∀ sl2, slotOfSup E r2 = some sl2 →
      sl2 ∈ addSlot st.busy p.id (e.scheduled_date, e.start_time) r2.professor_id
    intro r2 hr2 sl2 hsl2
    rcases List.mem_append.1 hr2 with hold | hnew
    · exact addSlot_mono (hA r2 hold sl2 hsl2)
    · have hr2ns : r2 = ns := List.mem_singleton.1 hnew
      subst hr2ns
      rw [slotOfSup_of_exam hE he hnse] at hsl2
      have hsl2eq : sl2 = (e.scheduled_date, e.start_time) := (Option.some.inj hsl2).symm
      rw [hsl2eq, hnsp]
      exact addSlot_self
  · show List.Pairwise (supSlotOK E) (st.recs ++ [ns])
    rw [List.pairwise_append]
    refine ⟨hB, List.pairwise_singleton _ _, ?_⟩
    intro r1 hr1 r2 hr2
    have hr2ns : r2 = ns := List.mem_singleton.1 hr2
    subst hr2ns
    intro hprofeq hexne sl1 sl2 hsl1 hsl2
    rw [slotOfSup_of_exam hE he hnse] at hsl2
    have hsl2eq : sl2 = (e.scheduled_date, e.start_time) := (Option.some.inj hsl2).symm
    have h1 : sl1 ∈ st.busy r1.professor_id := hA r1 hr1 sl1 hsl1
    rw [hprofeq, hnsp] at h1
    intro heq
    rw [heq, hsl2eq] at h1
    exact hslot h1
  · show ∀ pid, ((addSlot st.busy p.id (e.scheduled_date, e.start_time)) pid).Nodup
    exact addSlot_nodup hC
  · show ∀ q ∈ profs, ∀ d : Nat,
      supsOnDate E (st.recs ++ [ns]) q.id d ≤
        dayCount (addSlot st.busy p.id (e.scheduled_date, e.start_time)) q.id (some d) ∧
      dayCount (addSlot st.busy p.id (e.scheduled_date, e.start_time)) q.id (some d) ≤
        effectiveLimit q
    intro q hq d
    obtain ⟨hd1, hd2⟩ := hD q hq d
    by_cases hqp : q.id = p.id
    · have hpq : q = p := List.inj_on_of_nodup_map hprofIds hq hp hqp
      subst hpq
      rw [supsOnDate_append, supsOnDate_single, dayCount_addSlot_pair hslot]
      cases hed : e.scheduled_date with
      | none =>
        have hc1 : supOnDate E q.id d ns = false := by
          unfold supOnDate
          rw [slotOfSup_of_exam hE he hnse, hed]
          simp
        rw [hc1]
        simp only [Bool.false_eq_true, if_false]
        have hcn : ((none : Option Nat) == some d) = false := rfl
        rw [hcn]
        simp only [Bool.false_eq_true, if_false]
        exact ⟨by omega, by omega⟩
      | some d2 =>
        have hsup_eq : supOnDate E q.id d ns = (d2 == d) := by
          unfold supOnDate
          rw [slotOfSup_of_exam hE he hnse, hed, hnsp]
          simp
        rw [hsup_eq]
        by_cases hdd : d2 = d
        · subst hdd
          simp only [beq_self_eq_true, if_true]
          have hblt : dayCount st.busy q.id (some d2) < effectiveLimit q := by
            rw [hed] at hday
            exact hday
          exact ⟨by omega, by omega⟩
        · have hb1 : (d2 == d) = false := beq_eq_false_iff_ne.2 hdd
          have hb2 : ((some d2 : Option Nat) == some d) = false := by
            rw [beq_eq_false_iff_ne]
            intro hcc
            exact hdd (Option.some.inj hcc)
          rw [hb1, hb2]
          simp only [Bool.false_eq_true, if_false]
          exact ⟨by omega, by omega⟩
    · have hnsq : supOnDate E q.id d ns = false := by
        unfold supOnDate
        rw [hnsp]
        have hfalse : (p.id == q.id) = false :=
          beq_eq_false_iff_ne.2 (fun hcc => hqp hcc.symm)
        rw [hfalse]
        rfl
      rw [supsOnDate_append, supsOnDate_single, hnsq]
      simp only [Bool.false_eq_true, if_false]
      have hdc : dayCount (addSlot st.busy p.id (e.scheduled_date, e.start_time)) q.id (some d) =
          dayCount st.busy q.id (some d) := dayCount_addSlot_other hqp
      rw [hdc]
      exact ⟨by omega, hd2⟩

theorem candLoop_pids_sublist (busy : Nat → List (Option Nat × Option Nat)) (load : Nat → Nat)
    (e : Exam) (deptId : Option Nat) (curSups : List ExamSupervisor) (rand : Nat → Rat) :
    ∀ (ps : List Professor) (k : Nat),
      List.Sublist ((candLoop busy load e deptId curSups rand ps k).1.map (fun c => c.2))
        (ps.map (fun p => p.id)) := by
  intro ps
  induction ps with
  | nil => intro k; exact List.Sublist.refl []
  | cons p ps ih =>
    intro k
    unfold candLoop
    by_cases h1 : (e.scheduled_date, e.start_time) ∈ busy p.id
    · rw [if_pos h1]
      exact List.Sublist.cons _ (ih k)
    · rw [if_neg h1]
      by_cases h2 : effectiveLimit p ≤ dayCount busy p.id e.scheduled_date
      · rw [if_pos h2]
        exact List.Sublist.cons _ (ih k)
      · rw [if_neg h2]
        by_cases h3 : curSups.any (fun s2 => s2.professor_id == p.id) = true
        · rw [if_pos h3]
          exact List.Sublist.cons _ (ih k)
        · rw [if_neg h3]
          exact List.Sublist.cons₂ _ (ih (k + 1))

theorem pickLoop_inv (E : List Exam) (profs : List Professor)
    (hprofIds : (profs.map (fun x => x.id)).Nodup)
    (hE : (E.map (fun x => x.id)).Nodup)
    (e : Exam) (he : e ∈ E) (deptId : Option Nat) (noCur : Bool) :
    ∀ (picks : List (Rat × Nat)) (i : Nat) (st : AState),
      AInv E profs st →
      (∀ c ∈ picks, ∃ p ∈ profs, p.id = c.2 ∧
        (e.scheduled_date, e.start_time) ∉ st.busy p.id ∧
        dayCount st.busy p.id e.scheduled_date < effectiveLimit p) →
      ((picks.map (fun c => c.2)).Nodup) →
      AInv E profs (pickLoop profs e deptId noCur picks i st) := by
  intro picks
  induction picks with
  | nil => intro i st hinv _ _; exact hinv
  | cons c rest ih =>
    intro i st hinv hconds hnodup
    obtain ⟨p, hp, hpid, hslot, hday⟩ := hconds c (List.mem_cons_self c rest)
    have hheadpid : c.2 ∉ rest.map (fun x => x.2) := (List.nodup_cons.1 hnodup).1
    show AInv E profs (pickLoop profs e deptId noCur rest (i + 1)
      { busy := addSlot st.busy c.2 (e.scheduled_date, e.start_time)
        load := bumpLoad st.load c.2
        recs := st.recs ++ [{ exam_id := e.id, professor_id := c.2
                              role := if i == 0 && noCur then responsibleRole else supervisorRole
                              is_department_exam := isDeptMatch profs c.2 deptId }]
        nAssign := st.nAssign + 1
        k := st.k })
    have hstep : AInv E profs
        { busy := addSlot st.busy c.2 (e.scheduled_date, e.start_time)
          load := bumpLoad st.load c.2
          recs := st.recs ++ [{ exam_id := e.id, professor_id := c.2
                                role := if i == 0 && noCur then responsibleRole else supervisorRole
                                is_department_exam := isDeptMatch profs c.2 deptId }]
          nAssign := st.nAssign + 1
          k := st.k } :=
      AInv_step E profs hprofIds hE he hinv hp hpid hslot hday
        { exam_id := e.id, professor_id := c.2
          role := if i == 0 && noCur then responsibleRole else supervisorRole
          is_department_exam := isDeptMatch profs c.2 deptId }
        rfl rfl (bumpLoad st.load c.2) (st.nAssign + 1) st.k
    refine ih (i + 1) _ hstep ?_ (List.nodup_cons.1 hnodup).2
    intro c2 hc2
    obtain ⟨p2, hp2, hpid2, hslot2, hday2⟩ := hconds c2 (List.mem_cons_of_mem c hc2)
    have hne : p2.id ≠ c.2 := by
      rw [hpid2]
      intro heq
      apply hheadpid
      rw [← heq]
      exact List.mem_map_of_mem _ hc2
    refine ⟨p2, hp2, hpid2, ?_, ?_⟩
    · show (e.scheduled_date, e.start_time) ∉ addSlot st.busy c.2 (e.scheduled_date, e.start_time) p2.id
      rw [addSlot_other hne]
      exact hslot2
    · show dayCount (addSlot st.busy c.2 (e.scheduled_date, e.start_time)) p2.id e.scheduled_date <
        effectiveLimit p2
      rw [dayCount_addSlot_other hne]
      exact hday2

theorem assignExam_inv (db : DB) (profs : List Professor) (rand : Nat → Rat) (E : List Exam)
    (hprofIds : (profs.map (fun x => x.id)).Nodup)
    (hE : (E.map (fun x => x.id)).Nodup)
    (st : AState) (e : Exam) (he : e ∈ E)
    (hinv : AInv E profs st) :
    AInv E profs (assignExam db profs [] rand st e) := by
  simp only [assignExam]
  split
  · exact hinv
  · refine pickLoop_inv E profs hprofIds hE e he _ _ _ 0 _ hinv ?_ ?_
    · intro c hc
      have hc1 : c ∈ sortBy (fun a b => decide (b.1 ≤ a.1))
          (candLoop st.busy st.load e (examDeptId db e)
            (([] : List ExamSupervisor).filter (fun s2 => s2.exam_id == e.id)) rand
            profs st.k).1 := (List.take_sublist _ _).subset hc
      have hc2 := mem_sortBy.1 hc1
      exact candLoop_mem st.busy st.load e (examDeptId db e) _ rand profs st.k hc2
    · have hsub1 := candLoop_pids_sublist st.busy st.load e (examDeptId db e)
        (([] : List ExamSupervisor).filter (fun s2 => s2.exam_id == e.id)) rand profs st.k
      have hnd1 : ((candLoop st.busy st.load e (examDeptId db e)
          (([] : List ExamSupervisor).filter (fun s2 => s2.exam_id == e.id)) rand
          profs st.k).1.map (fun c => c.2)).Nodup := List.Nodup.sublist hsub1 hprofIds
      have hnd2 : ((sortBy (fun a b => decide (b.1 ≤ a.1))
          (candLoop st.busy st.load e (examDeptId db e)
            (([] : List ExamSupervisor).filter (fun s2 => s2.exam_id == e.id)) rand
            profs st.k).1).map (fun c => c.2)).Nodup :=
        (List.Perm.nodup_iff (List.Perm.map _ (sortBy_perm _ _))).2 hnd1
      exact List.Nodup.sublist (List.Sublist.map _ (List.take_sublist _ _)) hnd2

theorem assignFold_inv (db : DB) (profs : List Professor) (rand : Nat → Rat) (E : List Exam)
    (hprofIds : (profs.map (fun x => x.id)).Nodup)
    (hE : (E.map (fun x => x.id)).Nodup) :
    ∀ (es : List Exam), (∀ e ∈ es, e ∈ E) → ∀ (st : AState), AInv E profs st →
      AInv E profs (es.foldl (assignExam db profs [] rand) st)
  | [], _, _, hinv => hinv
  | e :: es, hsub, st, hinv =>
    assignFold_inv db profs rand E hprofIds hE es
      (fun a ha => hsub a (List.mem_cons_of_mem e ha))
      (assignExam db profs [] rand st e)
      (assignExam_inv db profs rand E hprofIds hE st e (hsub e (List.mem_cons_self e es)) hinv)

theorem AInv_empty (E : List Exam) (profs : List Professor) : AInv E profs emptyAState :=
  ⟨fun r2 hr2 => absurd hr2 (List.not_mem_nil r2), List.Pairwise.nil,
   fun _ => List.nodup_nil, fun _ _ _ => ⟨Nat.le_refl 0, Nat.zero_le _⟩⟩

theorem supOnDate_eq_false_of_none {E : List Exam} {s2 : ExamSupervisor}
    (hnone : slotOfSup E s2 = none) (pid d : Nat) : supOnDate E pid d s2 = false := by
  unfold supOnDate
  rw [hnone]
  simp

theorem pairwise_of_slotNone (E : List Exam) :
    ∀ (l : List ExamSupervisor), (∀ s2 ∈ l, slotOfSup E s2 = none) →
      List.Pairwise (supSlotOK E) l
  | [], _ => List.Pairwise.nil
  | s2 :: l, hall =>
    List.Pairwise.cons
      (fun _ _ _ _ _ _ hsl1 => by
        rw [hall s2 (List.mem_cons_self s2 l)] at hsl1
        exact Option.noConfusion hsl1)
      (pairwise_of_slotNone E l (fun a ha => hall a (List.mem_cons_of_mem s2 ha)))

theorem supsOnDate_zero {E : List Exam} {l : List ExamSupervisor}
    (hall : ∀ s2 ∈ l, slotOfSup E s2 = none) (pid d : Nat) :
    supsOnDate E l pid d = 0 := by
  unfold supsOnDate
  rw [List.filter_eq_nil_iff.2 (fun a ha => by
    rw [supOnDate_eq_false_of_none (hall a ha) pid d]
    exact Bool.false_ne_true)]
  rfl

/-- C4 (amended): on a run started with no pre-existing supervisor rows on
the session's scheduled exams (and with primary-key-unique professor and exam
ids), `assignSupervisors` never books one professor on two distinct session
exams sitting at the same exact (date, time) slot, and never exceeds a
professor's daily limit (`max_exams_per_day`, with the falsy 0 defaulting
to 3) on any date.  The unamended claim — no assignment to two
temporally-overlapping exams — fails because the busy check compares exact
(date, time) slots, not `[start, start+duration)` windows; see the
counterexample. -/
theorem C4_no_double_booking (db : DB) (sid : Nat) (rand : Nat → Rat)
    (db2 : DB) (resp : AssignResponse)
    (h : assign_exam_supervisors db sid rand = .ok (db2, resp))
    (hprofIds : ((activeProfsOf db).map (fun p => p.id)).Nodup)
    (hE : ((scheduledExamsOf db sid).map (fun e => e.id)).Nodup)
    (hclean : existingAssignmentsOf db sid = []) :
    List.Pairwise (supSlotOK (scheduledExamsOf db sid)) db2.supervisors ∧
    ∀ p ∈ activeProfsOf db, ∀ d : Nat,
      supsOnDate (scheduledExamsOf db sid) db2.supervisors p.id d ≤ effectiveLimit p := by
  have hpre_none : ∀ s2 ∈ db.supervisors, slotOfSup (scheduledExamsOf db sid) s2 = none := by
    intro s2 hs2
    have hnotany := List.filter_eq_nil_iff.1 hclean s2 hs2
    have hfind : (scheduledExamsOf db sid).find? (fun e => e.id == s2.exam_id) = none :=
      List.find?_eq_none.2 (fun x hx hbeq => hnotany (List.any_eq_true.2 ⟨x, hx, hbeq⟩))
    unfold slotOfSup
    rw [hfind]
    rfl
  rcases assign_ok_elim h with ⟨hdb2, _hresp, _hEnil⟩ | ⟨st0, hfb, hsup⟩
  · subst hdb2
    refine ⟨pairwise_of_slotNone _ _ hpre_none, ?_⟩
    intro p _hp d
    rw [supsOnDate_zero hpre_none p.id d]
    exact Nat.zero_le _
  · have hst0 : emptyAState = st0 := by
      rw [hclean] at hfb
      injection hfb
    subst hst0
    have hfold : AInv (scheduledExamsOf db sid) (activeProfsOf db)
        ((scheduledExamsOf db sid).foldl (assignExam db (activeProfsOf db) [] rand)
          emptyAState) :=
      assignFold_inv db (activeProfsOf db) rand (scheduledExamsOf db sid) hprofIds hE
        (scheduledExamsOf db sid) (fun a ha => ha) emptyAState
        (AInv_empty (scheduledExamsOf db sid) (activeProfsOf db))
    have hrun : assignRunOf db sid rand emptyAState =
        (scheduledExamsOf db sid).foldl (assignExam db (activeProfsOf db) [] rand)
          emptyAState := by
      unfold assignRunOf
      rw [hclean]
    rw [← hrun] at hfold
    obtain ⟨_hA, hB, _hC, hD⟩ := hfold
    constructor
    · rw [hsup, List.pairwise_append]
      refine ⟨pairwise_of_slotNone _ _ hpre_none, hB, ?_⟩
      intro s1 hs1 r2 _hr2
      intro _hpe _hex sl1 sl2 hsl1 _hsl2
      rw [hpre_none s1 hs1] at hsl1
      exact Option.noConfusion hsl1
    · intro p hp d
      rw [hsup, supsOnDate_append, supsOnDate_zero hpre_none p.id d]
      have hD2 := hD p hp d
      omega

/-- C4 counterexample: in `cexDb4` the two scheduled exams of the session
occupy overlapping time windows ([510, 690) and [660, 720) on day 0) but
distinct exact slots, so the single active professor passes the exact-slot
busy check for both and ends up supervising two temporally-overlapping
exams, refuting the claim as stated. -/
theorem C4_counterexample :
    (assign_exam_supervisors cexDb4 1 (fun _ => 0)).map (fun p => hasSupervisorOverlap p.1) =
      .ok true := by with_unfolding_all rfl

set_option maxRecDepth 8000 in
/-- C4 witness: on `witDbSup` (two disjoint-window exams, two active
professors, no pre-existing rows) the run's output satisfies both amended
conclusions. -/
theorem C4_no_double_booking_witness :
    List.Pairwise (supSlotOK (scheduledExamsOf witDbSup 1)) witDbSupAfter.supervisors ∧
    ∀ p ∈ activeProfsOf witDbSup, ∀ d : Nat,
      supsOnDate (scheduledExamsOf witDbSup 1) witDbSupAfter.supervisors p.id d ≤
        effectiveLimit p :=
  C4_no_double_booking witDbSup 1 (fun _ => 0) witDbSupAfter (.report 4 2 2)
    (by with_unfolding_all decide) (by decide) (by decide) (by rfl)

theorem pickLoop_recs (profs : List Professor) (e : Exam) (deptId : Option Nat) (noCur : Bool) :
    ∀ (picks : List (Rat × Nat)) (i : Nat) (st : AState),
      ∃ newRecs : List ExamSupervisor,
        (pickLoop profs e deptId noCur picks i st).recs = st.recs ++ newRecs ∧
        newRecs.length = picks.length ∧
        (∀ r ∈ newRecs, r.exam_id = e.id) ∧
        ∀ j (hj : j < newRecs.length),
          (newRecs.get ⟨j, hj⟩).role =
            if (i + j == 0) && noCur then responsibleRole else supervisorRole
  | [], _, st => ⟨[], (List.append_nil st.recs).symm, rfl,
      fun r hr => absurd hr (List.not_mem_nil r),
      fun j hj => absurd hj (Nat.not_lt_zero j)⟩
  | c :: rest, i, st => by
    obtain ⟨nr, hrecs, hlen, hexid, hroles⟩ :=
      pickLoop_recs profs e deptId noCur rest (i + 1)
        { busy := addSlot st.busy c.2 (e.scheduled_date, e.start_time)
          load := bumpLoad st.load c.2
          recs := st.recs ++
            [{ exam_id := e.id
               professor_id := c.2
               role := if i == 0 && noCur then responsibleRole else supervisorRole
               is_department_exam := isDeptMatch profs c.2 deptId }]
          nAssign := st.nAssign + 1
          k := st.k }
    refine ⟨{ exam_id := e.id
              professor_id := c.2
              role := if i == 0 && noCur then responsibleRole else supervisorRole
              is_department_exam := isDeptMatch profs c.2 deptId } :: nr, ?_, ?_, ?_, ?_⟩
    · have h2 : (pickLoop profs e deptId noCur (c :: rest) i st).recs =
          (st.recs ++
            [{ exam_id := e.id
               professor_id := c.2
               role := if i == 0 && noCur then responsibleRole else supervisorRole
               is_department_exam := isDeptMatch profs c.2 deptId }]) ++ nr := hrecs
      rw [List.append_assoc] at h2
      exact h2
    · simp only [List.length_cons, hlen]
    · intro r hr
      rcases List.mem_cons.1 hr with rfl | hr
      · rfl
      · exact hexid r hr
    · intro j hj
      cases j with
      | zero => rfl
      | succ j2 =>
        have hj2 : j2 < nr.length := by
          simp only [List.length_cons] at hj
          omega
        have hr := hroles j2 hj2
        rw [show i + (j2 + 1) = i + 1 + j2 from by omega]
        exact hr

/-- C5: when the exam has no pre-existing supervisor rows and the candidate
filter leaves at least `max(2, expected_students / 25 + 1)` professors, one
assignment step creates exactly that many supervisor rows for the exam, the
first with role `responsible` and every later one with role `supervisor`. -/
theorem C5_required_count_and_roles (db : DB) (profs : List Professor) (rand : Nat → Rat)
    (st : AState) (e : Exam)
    (hel : requiredSupervisors e.expected_students ≤
      (candLoop st.busy st.load e (examDeptId db e) [] rand profs st.k).1.length) :
    ∃ newRecs : List ExamSupervisor,
      (assignExam db profs [] rand st e).recs = st.recs ++ newRecs ∧
      newRecs.length = max 2 (e.expected_students / 25 + 1) ∧
      (∀ r ∈ newRecs, r.exam_id = e.id) ∧
      ∀ j (hj : j < newRecs.length),
        (newRecs.get ⟨j, hj⟩).role = if j == 0 then responsibleRole else supervisorRole := by
  have h0 : ¬(requiredSupervisors e.expected_students ≤ 0) := by
    unfold requiredSupervisors
    omega
  simp only [assignExam, List.filter_nil, List.length_nil, List.isEmpty_nil, Nat.sub_zero]
  rw [if_neg h0]
  obtain ⟨nr, hrecs, hlen, hexid, hroles⟩ :=
    pickLoop_recs profs e (examDeptId db e) true
      ((sortBy (fun (a b : Rat × Nat) => decide (b.1 ≤ a.1))
        (candLoop st.busy st.load e (examDeptId db e) [] rand profs st.k).1).take
        (requiredSupervisors e.expected_students))
      0 { st with k := (candLoop st.busy st.load e (examDeptId db e) [] rand profs st.k).2 }
  refine ⟨nr, hrecs, ?_, hexid, ?_⟩
  · rw [hlen, List.length_take, (sortBy_perm _ _).length_eq, Nat.min_eq_left hel]
    rfl
  · intro j hj
    have hr := hroles j hj
    rw [hr, Nat.zero_add, Bool.and_true]

/-- C5 witness: `witExam5` expects 60 students, so 3 supervisors are
required; with the three professors of `witProfs5` all eligible, the step
creates exactly 3 rows, the first `responsible`, the rest `supervisor`. -/
theorem C5_required_count_and_roles_witness :
    ∃ newRecs : List ExamSupervisor,
      (assignExam witDbSup witProfs5 [] (fun _ => 0) emptyAState witExam5).recs =
        emptyAState.recs ++ newRecs ∧
      newRecs.length = max 2 (witExam5.expected_students / 25 + 1) ∧
      (∀ r ∈ newRecs, r.exam_id = witExam5.id) ∧
      ∀ j (hj : j < newRecs.length),
        (newRecs.get ⟨j, hj⟩).role = if j == 0 then responsibleRole else supervisorRole :=
  C5_required_count_and_roles witDbSup witProfs5 (fun _ => 0) emptyAState witExam5
    (by with_unfolding_all decide)

end ProjectBda
